import Mathlib

set_option maxHeartbeats 1000000

/-!
Shallow embedding of the paybeanlink sync server (src/server.js).  The
POST /sync/* handlers all follow one upsert shape: parse the payload,
derive a merchant id and a record id, SELECT an existing row by the
kind's natural key, then either UPDATE the found row or INSERT a new
one.  Each handler is modelled as an instance of `KindOps` below; the
opaque jsonb payload columns are modelled as `String` blobs, SQL
timestamps as `Nat` (the caller passes the current time explicitly),
and the loosely typed JSON payload fields as `JsField` values that
distinguish an absent field, an explicit null, and a value.
-/

/-- Value of an optional JSON field as seen by the JS handlers: a field
can be absent (`undef`), explicitly `null`, or carry a value.  The
distinction matters because the source mixes `??` (nullish coalescing)
and `||` (truthiness) and `!== undefined` checks on these fields. -/
inductive JsField (α : Type) where
  | undef : JsField α
  | null : JsField α
  | val : α → JsField α
deriving DecidableEq

/-- JS nullish coalescing `x ?? d`: `null` and `undefined` give the
default, any other value (including 0 and false) is kept.  This is the
merchant-id resolution `data.mid ?? 1` used by every merchant-scoped
handler (server.js lines 187, 243, 300, 363, 419, 492, 549, 623, 680,
757, 1038, 1105). -/
def nullish {α : Type} (f : JsField α) (d : α) : α :=
  match f with
  | .val a => a
  | _ => d

/-- JS `x || d` on a numeric field: `undefined`, `null` and `0` are all
falsy and give the default (source: `data.id || fallback`). -/
def truthyIntOr (f : JsField Int) (d : Int) : Int :=
  match f with
  | .val a => if a = 0 then d else a
  | _ => d

/-- JS `x || d` on a string field: `undefined`, `null` and the empty
string are falsy (source: `productData.metrics || 'unit'`). -/
def truthyStrOr (f : JsField String) (d : String) : String :=
  match f with
  | .val s => if s = "" then d else s
  | _ => d

/-- SQL comparison `column = $param` for a text parameter taken from a
JS field: a `null` (or absent, transmitted as null) parameter matches
no row under SQL three-valued logic. -/
def jsStrEq (f : JsField String) (s : String) : Bool :=
  match f with
  | .val t => t == s
  | _ => false

/-- Value stored in a nullable SQL column for a JS field: `undefined`
and `null` both arrive at the driver as SQL NULL. -/
def jsToOption {α : Type} (f : JsField α) : Option α :=
  match f with
  | .val a => some a
  | _ => none

/-- JS `x || false` on a boolean field (source:
`registerData.gstEnabled || false`, server.js lines 895, 944). -/
def jsOrFalse (f : JsField Bool) : Bool :=
  match f with
  | .val b => b
  | _ => false

/-- The register endpoint's flag parameter `x !== undefined ? x : d`
(server.js lines 896-903 and 945-952): an absent flag becomes the
per-field default, an explicit `null` is passed through (stored as SQL
NULL), an explicit boolean is stored as given. -/
def flagParam (f : JsField Bool) (d : Bool) : Option Bool :=
  match f with
  | .undef => some d
  | .null => none
  | .val b => some b

/-- JSON.stringify of the inventory `rows` field as handed to the jsonb
`data` column (server.js lines 256, 263): `JSON.stringify(undefined)`
is `undefined`, which the driver sends as SQL NULL, hence `none`;
`JSON.stringify(null)` is the four-character text `"null"`; any present
blob serializes, and the serialized form is kept opaque. -/
def stringifyJs (f : JsField String) : Option String :=
  match f with
  | .undef => none
  | .null => some "null"
  | .val s => some s

/-- Leading whitespace skipped by JS parseInt. -/
def dropWs : List Char → List Char
  | [] => []
  | c :: cs => if c = ' ' ∨ c = '\t' ∨ c = '\n' ∨ c = '\r' then dropWs cs else c :: cs

/-- Value of a decimal digit run, most significant first. -/
def natOfDigitsAux (acc : Nat) : List Char → Nat
  | [] => acc
  | c :: cs => natOfDigitsAux (acc * 10 + (c.toNat - '0'.toNat)) cs

/-- JS `parseInt(s)` on a decimal string: skip leading whitespace, read
an optional sign and a leading run of digits; `none` models NaN (no
digits found).  `parseInt` applied to an absent or null field coerces
the argument to the strings "undefined" or "null" and yields NaN. -/
def parseIntJS (f : JsField String) : Option Int :=
  match f with
  | .val s =>
    match dropWs s.toList with
    | '-' :: r =>
      if r.takeWhile Char.isDigit = [] then none
      else some (-(Int.ofNat (natOfDigitsAux 0 (r.takeWhile Char.isDigit))))
    | '+' :: r =>
      if r.takeWhile Char.isDigit = [] then none
      else some (Int.ofNat (natOfDigitsAux 0 (r.takeWhile Char.isDigit)))
    | r =>
      if r.takeWhile Char.isDigit = [] then none
      else some (Int.ofNat (natOfDigitsAux 0 (r.takeWhile Char.isDigit)))
  | _ => none

/-- Second and third alternatives of the bill id fallback chain
`parseInt(billData.billNumber) || Math.floor(Date.now() / 1000)`
(server.js line 186): NaN and 0 are falsy and fall through to the
whole-seconds timestamp. -/
def deriveFromNumber (billNumber : JsField String) (nowMs : Nat) : Int :=
  match parseIntJS billNumber with
  | some n => if n = 0 then Int.ofNat (nowMs / 1000) else n
  | none => Int.ofNat (nowMs / 1000)

/-- The bills endpoint's id derivation (server.js line 186):
`billData.id || parseInt(billData.billNumber) || Math.floor(Date.now() / 1000)`.
`||` is truthiness, so an explicit id of 0 falls through to the bill
number, and a bill number that parses to 0 or NaN falls through to the
timestamp. -/
def deriveBillId (id : JsField Int) (billNumber : JsField String) (nowMs : Nat) : Int :=
  match id with
  | .val a => if a = 0 then deriveFromNumber billNumber nowMs else a
  | _ => deriveFromNumber billNumber nowMs

/-- Ingredients of one merchant-scoped sync endpoint, mirroring the
handler shape shared by all POST /sync routes of server.js: a SELECT by
natural key (`look`), an UPDATE whose WHERE clause matches on (id, mid)
(`updWhere`) and whose SET list is `updSet` (`none` when the SET would
write NULL into a NOT NULL column), and an INSERT row (`ins`, `none`
when a NOT NULL column would receive NULL).  `key` projects the table's
natural key and `rid`/`rmid` the two primary key columns.  `look` and
`updWhere` receive the call time because the bills endpoint derives its
lookup id from the clock. -/
structure KindOps (Rec Row Key : Type) where
  key : Row → Key
  rid : Row → Int
  rmid : Row → Int
  look : Rec → Nat → Row → Bool
  updWhere : Rec → Nat → Row → Row → Bool
  updSet : Rec → Nat → Option (Row → Row)
  ins : Rec → Nat → Option Row

/-- One call of a sync endpoint: SELECT the first row matching the
natural key; if one is found run the UPDATE (the response carries the
updated found row, per RETURNING *), else run the INSERT and append the
new row; `none` is the handler's catch branch (HTTP 500), reached when
a required column would receive NULL. -/
def KindOps.run {Rec Row Key : Type} (K : KindOps Rec Row Key)
    (rec : Rec) (now : Nat) (s : List Row) : Option (Row × List Row) :=
  match s.find? (K.look rec now) with
  | some e =>
    match K.updSet rec now with
    | some f => some (f e, s.map fun r => if K.updWhere rec now e r then f r else r)
    | none => none
  | none =>
    match K.ins rec now with
    | some x => some (x, s ++ [x])
    | none => none

/-- Store reached by one endpoint call: the new store on success, the
old store unchanged when the handler errored. -/
def KindOps.apply {Rec Row Key : Type} (K : KindOps Rec Row Key)
    (rec : Rec) (now : Nat) (s : List Row) : List Row :=
  match K.run rec now s with
  | some p => p.2
  | none => s

/-- Payload of POST /sync/merchants after normalization (server.js
lines 479-523). -/
structure MerchRec where
  id : JsField Int
  mid : JsField Int
  name : JsField String
deriving DecidableEq

/-- Row of the merchants table (server.js lines 19-29): UNIQUE (name, mid). -/
structure MerchRow where
  id : Int
  mid : Int
  name : String
  created_at : Nat
  updated_at : Nat
deriving DecidableEq

/-- Upsert ingredients of POST /sync/merchants (server.js lines
489-515): lookup `SELECT id, mid FROM merchants WHERE name = $1 AND mid = $2`,
update `SET updated_at = CURRENT_TIMESTAMP WHERE id = $1 AND mid = $2`,
insert `(id, mid, name, created_at)` with id
`merchantData.id || Math.floor(Date.now() / 1000)` and mid
`merchantData.mid ?? 1`; an insert with a null name violates NOT NULL. -/
def merchOps : KindOps MerchRec MerchRow (String × Int) where
  key r := (r.name, r.mid)
  rid r := r.id
  rmid r := r.mid
  look rec _ r := jsStrEq rec.name r.name && r.mid == nullish rec.mid 1
  updWhere rec _ e r := r.id == e.id && r.mid == nullish rec.mid 1
  updSet _ now := some fun r => { r with updated_at := now }
  ins rec now :=
    match rec.name with
    | .val nm =>
      some ⟨truthyIntOr rec.id (Int.ofNat (now / 1000)), nullish rec.mid 1, nm, now, now⟩
    | _ => none

/-- Payload of POST /sync/bills after normalization; `raw` is the
request's original `data` value, which is what the jsonb data column
stores (server.js lines 175-218). -/
structure BillRec where
  id : JsField Int
  billNumber : JsField String
  mid : JsField Int
  raw : String
deriving DecidableEq

/-- Row of the bills table (server.js lines 31-40).  The table has no
updated_at column. -/
structure BillRow where
  id : Int
  mid : Int
  data : String
  created_at : Nat
deriving DecidableEq

/-- Upsert ingredients of POST /sync/bills (server.js lines 184-210):
lookup and update are both keyed on the derived (billId, mid), and the
update overwrites the payload and the creation timestamp
(`SET data = $1, created_at = CURRENT_TIMESTAMP`). -/
def billsOps : KindOps BillRec BillRow (Int × Int) where
  key r := (r.id, r.mid)
  rid r := r.id
  rmid r := r.mid
  look rec now r := r.id == deriveBillId rec.id rec.billNumber now && r.mid == nullish rec.mid 1
  updWhere rec now _ r := r.id == deriveBillId rec.id rec.billNumber now && r.mid == nullish rec.mid 1
  updSet rec now := some fun r => { r with data := rec.raw, created_at := now }
  ins rec now := some ⟨deriveBillId rec.id rec.billNumber now, nullish rec.mid 1, rec.raw, now⟩

/-- Payload of POST /sync/inventory after normalization (server.js
lines 231-274); `rows` is the counted-items array, kept opaque as its
serialized form. -/
structure InvRec where
  id : JsField Int
  mid : JsField Int
  merchantName : JsField String
  date : JsField String
  rows : JsField String
deriving DecidableEq

/-- Row of the inventory table (server.js lines 42-55):
UNIQUE (merchant_name, date, mid). -/
structure InvRow where
  id : Int
  mid : Int
  merchant_name : String
  date : String
  data : String
  created_at : Nat
  updated_at : Nat
deriving DecidableEq

/-- Upsert ingredients of POST /sync/inventory (server.js lines
241-266): lookup by (merchant_name, date, mid), update
`SET data = $1, updated_at = CURRENT_TIMESTAMP WHERE id = $2 AND mid = $3`
with the found row's id, insert with id
`inventoryData.id || Math.floor(Date.now() / 1000)`.  Both writes put
`JSON.stringify(inventoryData.rows)` into the NOT NULL data column, so
they fail when that value is SQL NULL. -/
def invOps : KindOps InvRec InvRow (String × String × Int) where
  key r := (r.merchant_name, r.date, r.mid)
  rid r := r.id
  rmid r := r.mid
  look rec _ r :=
    jsStrEq rec.merchantName r.merchant_name && jsStrEq rec.date r.date
      && r.mid == nullish rec.mid 1
  updWhere rec _ e r := r.id == e.id && r.mid == nullish rec.mid 1
  updSet rec now := (stringifyJs rec.rows).map fun b r => { r with data := b, updated_at := now }
  ins rec now :=
    match rec.merchantName, rec.date, stringifyJs rec.rows with
    | .val mn, .val d, some b =>
      some ⟨truthyIntOr rec.id (Int.ofNat (now / 1000)), nullish rec.mid 1, mn, d, b, now, now⟩
    | _, _, _ => none

/-- One record of the POST /sync/supplies batch (server.js lines
416-442). -/
structure SupplyRec where
  id : JsField Int
  mid : JsField Int
  name : JsField String
deriving DecidableEq

/-- Row of the supply table (server.js lines 57-68): UNIQUE (name, mid). -/
structure SupplyRow where
  id : Int
  mid : Int
  name : String
  created_at : Nat
  updated_at : Nat
deriving DecidableEq

/-- Upsert ingredients of one record of the POST /sync/supplies batch
loop (server.js lines 416-442): lookup by (name, mid), update refreshes
only updated_at, insert `(id, mid, name, created_at)` with id
`supply.id || Math.floor(Date.now() / 1000)`; an insert with a null
name violates NOT NULL and is caught by the per-record try block. -/
def supplyOps : KindOps SupplyRec SupplyRow (String × Int) where
  key r := (r.name, r.mid)
  rid r := r.id
  rmid r := r.mid
  look rec _ r := jsStrEq rec.name r.name && r.mid == nullish rec.mid 1
  updWhere rec _ e r := r.id == e.id && r.mid == nullish rec.mid 1
  updSet _ now := some fun r => { r with updated_at := now }
  ins rec now :=
    match rec.name with
    | .val nm =>
      some ⟨truthyIntOr rec.id (Int.ofNat (now / 1000)), nullish rec.mid 1, nm, now, now⟩
    | _ => none

/-- Payload of POST /sync/production after normalization (server.js
lines 609-653); the whole parsed record is stored in the jsonb data
column, kept opaque as `blob`. -/
structure ProdRec where
  id : JsField Int
  mid : JsField Int
  date : JsField String
  blob : String
deriving DecidableEq

/-- Row of the production table (server.js lines 70-82):
UNIQUE (date, mid). -/
structure ProdRow where
  id : Int
  mid : Int
  date : String
  data : String
  created_at : Nat
  updated_at : Nat
deriving DecidableEq

/-- Upsert ingredients of POST /sync/production (server.js lines
621-646): lookup by (date, mid), update
`SET data = $1, updated_at = CURRENT_TIMESTAMP`, insert with id
`productionData.id || Math.floor(Date.now() / 1000)`; an insert with a
null date violates NOT NULL. -/
def prodOps : KindOps ProdRec ProdRow (String × Int) where
  key r := (r.date, r.mid)
  rid r := r.id
  rmid r := r.mid
  look rec _ r := jsStrEq rec.date r.date && r.mid == nullish rec.mid 1
  updWhere rec _ e r := r.id == e.id && r.mid == nullish rec.mid 1
  updSet rec now := some fun r => { r with data := rec.blob, updated_at := now }
  ins rec now :=
    match rec.date with
    | .val d =>
      some ⟨truthyIntOr rec.id (Int.ofNat (now / 1000)), nullish rec.mid 1, d, rec.blob, now, now⟩
    | _ => none

/-- Payload of POST /sync/products after normalization (server.js
lines 666-732). -/
structure ProductRec where
  id : JsField Int
  mid : JsField Int
  name : JsField String
  mrp : JsField Int
  wsp : JsField Int
  sp : JsField Int
  metrics : JsField String
  discount : JsField Int
  gst : JsField Int
  date : JsField String
deriving DecidableEq

/-- Row of the products table (server.js lines 84-102):
UNIQUE (name, mid); the date column is nullable. -/
structure ProductRow where
  id : Int
  mid : Int
  name : String
  mrp : Int
  wsp : Int
  sp : Int
  metrics : String
  discount : Int
  gst : Int
  date : Option String
  created_at : Nat
  updated_at : Nat
deriving DecidableEq

/-- Upsert ingredients of POST /sync/products (server.js lines
678-724): lookup by (name, mid); both writes default each pricing field
with `|| 0`, the unit of measure with `|| 'unit'`, and pass the date
through; insert id is `productData.id || Math.floor(Date.now() / 1000)`;
an insert with a null name violates NOT NULL. -/
def productOps : KindOps ProductRec ProductRow (String × Int) where
  key r := (r.name, r.mid)
  rid r := r.id
  rmid r := r.mid
  look rec _ r := jsStrEq rec.name r.name && r.mid == nullish rec.mid 1
  updWhere rec _ e r := r.id == e.id && r.mid == nullish rec.mid 1
  updSet rec now := some fun r =>
    { r with
      mrp := truthyIntOr rec.mrp 0
      wsp := truthyIntOr rec.wsp 0
      sp := truthyIntOr rec.sp 0
      metrics := truthyStrOr rec.metrics "unit"
      discount := truthyIntOr rec.discount 0
      gst := truthyIntOr rec.gst 0
      date := jsToOption rec.date
      updated_at := now }
  ins rec now :=
    match rec.name with
    | .val nm =>
      some ⟨truthyIntOr rec.id (Int.ofNat (now / 1000)), nullish rec.mid 1, nm,
        truthyIntOr rec.mrp 0, truthyIntOr rec.wsp 0, truthyIntOr rec.sp 0,
        truthyStrOr rec.metrics "unit", truthyIntOr rec.discount 0, truthyIntOr rec.gst 0,
        jsToOption rec.date, now, now⟩
    | _ => none

/-- Payload of POST /sync/bom after normalization (server.js lines
1024-1080); `data` is the items array, kept opaque as its value. -/
structure BomRec where
  id : JsField Int
  mid : JsField Int
  name : JsField String
  date : JsField String
  data : JsField String
deriving DecidableEq

/-- Row of the bill_of_material table (server.js lines 136-149):
UNIQUE (name, mid); name, date and data are NOT NULL. -/
structure BomRow where
  id : Int
  mid : Int
  name : String
  date : String
  data : String
  created_at : Nat
  updated_at : Nat
deriving DecidableEq

/-- Upsert ingredients of POST /sync/bom (server.js lines 1036-1072):
lookup by (name, mid), update
`SET data = $1, date = $2, updated_at = CURRENT_TIMESTAMP`, insert with
id `bomData.id || Math.floor(Date.now() / 1000)`; writes fail when the
NOT NULL data or date columns would receive NULL. -/
def bomOps : KindOps BomRec BomRow (String × Int) where
  key r := (r.name, r.mid)
  rid r := r.id
  rmid r := r.mid
  look rec _ r := jsStrEq rec.name r.name && r.mid == nullish rec.mid 1
  updWhere rec _ e r := r.id == e.id && r.mid == nullish rec.mid 1
  updSet rec now :=
    match rec.data, rec.date with
    | .val b, .val d => some fun r => { r with data := b, date := d, updated_at := now }
    | _, _ => none
  ins rec now :=
    match rec.name, rec.date, rec.data with
    | .val nm, .val d, .val b =>
      some ⟨truthyIntOr rec.id (Int.ofNat (now / 1000)), nullish rec.mid 1, nm, d, b, now, now⟩
    | _, _, _ => none

/-- Outcome of the POST /sync/supplies batch loop: the final store, the
results array and the errors array (server.js lines 412-460); the
response reports `processed: results.length`, `failed: errors.length`
and `success: errors.length === 0`. -/
structure BatchOut where
  store : List SupplyRow
  results : List SupplyRow
  errs : List (JsField String)
deriving DecidableEq

/-- Batch loop of POST /sync/supplies (server.js lines 416-452): the
records are processed strictly in order, each paired with its call
time; a failing record contributes its name to the errors array and the
loop continues on the store unchanged by the failed attempt. -/
def syncSupplies : List (SupplyRec × Nat) → List SupplyRow → BatchOut
  | [], s => ⟨s, [], []⟩
  | (rec, t) :: rest, s =>
    match supplyOps.run rec t s with
    | some (row, s') =>
      let out := syncSupplies rest s'
      ⟨out.store, row :: out.results, out.errs⟩
    | none =>
      let out := syncSupplies rest s
      ⟨out.store, out.results, rec.name :: out.errs⟩

/-- The `processed` field of the batch response (server.js line 456). -/
def batchProcessed (o : BatchOut) : Nat := o.results.length

/-- The `failed` field of the batch response (server.js line 457). -/
def batchFailed (o : BatchOut) : Nat := o.errs.length

/-- The `success` field of the batch response (server.js line 455). -/
def batchSuccess (o : BatchOut) : Bool := o.errs.length == 0

/-- Payload of POST /sync/register after normalization (server.js
lines 839-975).  The nested `location` object is flattened into the
five location fields the handler reads with optional chaining
(`registerData.location?.city` and friends); `editPassword` appears in
the payload type because a client may send it, but the handler never
reads it. -/
structure RegRec where
  merchantName : JsField String
  hostName : JsField String
  registeredDate : JsField String
  phoneNumber : JsField String
  email : JsField String
  locationAddress : JsField String
  locationCity : JsField String
  locationState : JsField String
  locationCountry : JsField String
  locationZipCode : JsField String
  registered : JsField Bool
  gstEnabled : JsField Bool
  enableMrpPrice : JsField Bool
  enableWspPrice : JsField Bool
  enableSpPrice : JsField Bool
  enableBillMenu : JsField Bool
  enableInventoryMenu : JsField Bool
  enableBomMenu : JsField Bool
  enableReportsMenu : JsField Bool
  enableRenewalMenu : JsField Bool
  editPassword : JsField String
deriving DecidableEq

/-- Row of the register table (server.js lines 104-134): id and
merchantId are SERIAL, hostName is UNIQUE and NOT NULL, registeredDate
is NOT NULL, the contact and location columns and `registered` and the
flag columns written with a possibly-null parameter are nullable, and
editPassword defaults to 'paybean'. -/
structure RegRow where
  id : Nat
  merchantName : Option String
  hostName : String
  registeredDate : String
  phoneNumber : Option String
  email : Option String
  locationAddress : Option String
  locationCity : Option String
  locationState : Option String
  locationCountry : Option String
  locationZipCode : Option String
  registered : Option Bool
  gstEnabled : Bool
  enableMrpPrice : Option Bool
  enableWspPrice : Option Bool
  enableSpPrice : Option Bool
  merchantId : Nat
  editPassword : String
  enableBillMenu : Option Bool
  enableInventoryMenu : Option Bool
  enableBomMenu : Option Bool
  enableReportsMenu : Option Bool
  enableRenewalMenu : Option Bool
  created_at : Nat
  updated_at : Nat
deriving DecidableEq

/-- The register table plus the state of its two SERIAL sequences. -/
structure RegStore where
  rows : List RegRow
  nextId : Nat
  nextMid : Nat
deriving DecidableEq

/-- The UPDATE of the register endpoint applied to one row (server.js
lines 860-906): it sets the contact, location, registered and flag
columns and refreshes updated_at; it does not touch id, hostName,
registeredDate, merchantId, editPassword or created_at. -/
def regUpdate (rec : RegRec) (now : Nat) (r : RegRow) : RegRow :=
  { r with
    merchantName := jsToOption rec.merchantName
    phoneNumber := jsToOption rec.phoneNumber
    email := jsToOption rec.email
    locationAddress := jsToOption rec.locationAddress
    locationCity := jsToOption rec.locationCity
    locationState := jsToOption rec.locationState
    locationCountry := jsToOption rec.locationCountry
    locationZipCode := jsToOption rec.locationZipCode
    registered := jsToOption rec.registered
    gstEnabled := jsOrFalse rec.gstEnabled
    enableMrpPrice := flagParam rec.enableMrpPrice true
    enableWspPrice := flagParam rec.enableWspPrice false
    enableSpPrice := flagParam rec.enableSpPrice false
    enableBillMenu := flagParam rec.enableBillMenu true
    enableInventoryMenu := flagParam rec.enableInventoryMenu true
    enableBomMenu := flagParam rec.enableBomMenu true
    enableReportsMenu := flagParam rec.enableReportsMenu true
    enableRenewalMenu := flagParam rec.enableRenewalMenu true
    updated_at := now }

/-- The INSERT of the register endpoint (server.js lines 919-955): the
database assigns the next sequential id and merchantId, the edit
password is the literal 'paybean', and the flag parameters are built
exactly as in the update branch. -/
def regInsertRow (rec : RegRec) (now : Nat) (hn rd : String) (st : RegStore) : RegRow where
  id := st.nextId
  merchantName := jsToOption rec.merchantName
  hostName := hn
  registeredDate := rd
  phoneNumber := jsToOption rec.phoneNumber
  email := jsToOption rec.email
  locationAddress := jsToOption rec.locationAddress
  locationCity := jsToOption rec.locationCity
  locationState := jsToOption rec.locationState
  locationCountry := jsToOption rec.locationCountry
  locationZipCode := jsToOption rec.locationZipCode
  registered := jsToOption rec.registered
  gstEnabled := jsOrFalse rec.gstEnabled
  enableMrpPrice := flagParam rec.enableMrpPrice true
  enableWspPrice := flagParam rec.enableWspPrice false
  enableSpPrice := flagParam rec.enableSpPrice false
  merchantId := st.nextMid
  editPassword := "paybean"
  enableBillMenu := flagParam rec.enableBillMenu true
  enableInventoryMenu := flagParam rec.enableInventoryMenu true
  enableBomMenu := flagParam rec.enableBomMenu true
  enableReportsMenu := flagParam rec.enableReportsMenu true
  enableRenewalMenu := flagParam rec.enableRenewalMenu true
  created_at := now
  updated_at := now

/-- One call of POST /sync/register (server.js lines 839-975): SELECT
by hostName alone (no merchant scoping); if found, UPDATE the row with
that id (the result row is the updated found row, the returned Bool is
the response's `isNew`); else INSERT, which needs a non-null hostName
(a null hostname also matches no row in the SELECT) and a non-null
registeredDate; `none` is the handler's catch branch. -/
def syncRegister (rec : RegRec) (now : Nat) (st : RegStore) :
    Option (RegRow × Bool × RegStore) :=
  match st.rows.find? (fun r => jsStrEq rec.hostName r.hostName) with
  | some e =>
    some (regUpdate rec now e, false,
      ⟨st.rows.map fun r => if r.id == e.id then regUpdate rec now r else r,
        st.nextId, st.nextMid⟩)
  | none =>
    match rec.hostName, rec.registeredDate with
    | .val hn, .val rd =>
      some (regInsertRow rec now hn rd st, true,
        ⟨st.rows ++ [regInsertRow rec now hn rd st], st.nextId + 1, st.nextMid + 1⟩)
    | _, _ => none

/-- Pointwise equal predicates find the same element. -/
theorem find?_congr_pred {α : Type} (p q : α → Bool) (s : List α)
    (h : ∀ r, p r = q r) : s.find? p = s.find? q := by
  have hpq : p = q := funext h
  rw [hpq]

/-- Searching a mapped list whose function does not change the
predicate finds the image of the original hit. -/
theorem find?_map_pres {α : Type} (p : α → Bool) (g : α → α) (s : List α)
    (h : ∀ r, p (g r) = p r) : (s.map g).find? p = (s.find? p).map g := by
  rw [List.find?_map, find?_congr_pred (p ∘ g) p s h]

/-- Keys are unchanged by a key-preserving map. -/
theorem map_key_map_pres {α Key : Type} (key : α → Key) (g : α → α) (s : List α)
    (h : ∀ r, key (g r) = key r) : (s.map g).map key = s.map key := by
  rw [List.map_map]
  exact List.map_congr_left (fun a _ => h a)

/-- Appending a row whose key is fresh keeps the key list Nodup. -/
theorem nodup_key_append {α Key : Type} (key : α → Key) (s : List α) (x : α)
    (hu : (s.map key).Nodup) (hx : ∀ r ∈ s, key r ≠ key x) :
    ((s ++ [x]).map key).Nodup := by
  rw [List.map_append]
  refine List.Nodup.append hu (List.nodup_singleton _) ?_
  intro a ha hb
  simp only [List.map_cons, List.map_nil, List.mem_singleton] at hb
  obtain ⟨r, hr, hra⟩ := List.mem_map.mp ha
  exact hx r hr (hra.trans hb)

/-- Filtering by the key of a member of a key-Nodup list returns
exactly that member. -/
theorem filter_key_single {α Key : Type} [DecidableEq Key] (key : α → Key) (s : List α) (e : α)
    (hu : (s.map key).Nodup) (he : e ∈ s) :
    s.filter (fun r => decide (key r = key e)) = [e] := by
  induction s with
  | nil => cases he
  | cons a t ih =>
    simp only [List.map_cons, List.nodup_cons] at hu
    rcases List.mem_cons.mp he with rfl | het
    · rw [List.filter_cons_of_pos (by simp)]
      have ht : t.filter (fun r => decide (key r = key e)) = [] := by
        refine List.filter_eq_nil_iff.mpr fun r hr => by
          simp only [decide_eq_true_eq]
          intro hk
          exact hu.1 (hk ▸ List.mem_map_of_mem key hr)
      rw [ht]
    · have hak : key a ≠ key e := fun hk => hu.1 (hk ▸ List.mem_map_of_mem key het)
      rw [List.filter_cons_of_neg (by simpa using hak)]
      exact ih hu.2 het

/-- Filtering by a key no member carries returns nothing. -/
theorem filter_key_nil {α Key : Type} [DecidableEq Key] (key : α → Key) (k : Key) (s : List α)
    (h : ∀ r ∈ s, key r ≠ k) : s.filter (fun r => decide (key r = k)) = [] :=
  List.filter_eq_nil_iff.mpr fun r hr => by simpa using h r hr

/-- Filtering by key commutes with a key-preserving map. -/
theorem filter_key_map_pres {α Key : Type} [DecidableEq Key] (key : α → Key) (g : α → α)
    (k : Key) (s : List α) (h : ∀ r, key (g r) = key r) :
    (s.map g).filter (fun r => decide (key r = k))
      = (s.filter (fun r => decide (key r = k))).map g := by
  rw [List.filter_map]
  congr 1
  refine List.filter_congr fun a _ => ?_
  simp [Function.comp, h a]

/-- Laws each KindOps instance satisfies by construction, relating two
call times t1 and t2: the UPDATE changes neither the natural key, nor
the lookup verdict, nor the primary key of any row; a found row matches
the UPDATE's own WHERE clause; the lookup verdict agrees at the two
call times (trivial for every endpoint except bills, whose lookup id is
clock-derived); an inserted row matches the lookup that failed, and its
key differs from the key of every row the lookup rejected; and the
well-formedness of the UPDATE and INSERT does not depend on the clock. -/
structure KindLaws {Rec Row Key : Type} (K : KindOps Rec Row Key)
    (rec : Rec) (t1 t2 : Nat) : Prop where
  keyf : ∀ n f, K.updSet rec n = some f → ∀ r, K.key (f r) = K.key r
  lookf : ∀ n f, K.updSet rec n = some f → ∀ n' r, K.look rec n' (f r) = K.look rec n' r
  idf : ∀ n f, K.updSet rec n = some f → ∀ r, K.rid (f r) = K.rid r ∧ K.rmid (f r) = K.rmid r
  self : ∀ n e, K.look rec n e = true → K.updWhere rec n e e = true
  det : ∀ r, K.look rec t1 r = K.look rec t2 r
  lookx : ∀ n x, K.ins rec n = some x → K.look rec n x = true
  inskey : ∀ n x, K.ins rec n = some x → ∀ r, K.look rec n r = false → K.key r ≠ K.key x
  updTotal : ∀ n nn, (K.updSet rec n).isSome → (K.updSet rec nn).isSome
  insUpd : ∀ n nn, (K.ins rec n).isSome → (K.updSet rec nn).isSome

/-- The merchants endpoint satisfies the upsert laws at any pair of
call times: its lookup reads only the payload. -/
theorem merchLaws (rec : MerchRec) (t1 t2 : Nat) : KindLaws merchOps rec t1 t2 := by
  refine ⟨?_, ?_, ?_, ?_, ?_, ?_, ?_, ?_, ?_⟩
  · intro n f hf r
    simp only [merchOps, Option.some.injEq] at hf
    subst hf
    rfl
  · intro n f hf nn r
    simp only [merchOps, Option.some.injEq] at hf
    subst hf
    rfl
  · intro n f hf r
    simp only [merchOps, Option.some.injEq] at hf
    subst hf
    exact ⟨rfl, rfl⟩
  · intro n e h
    simp only [merchOps, Bool.and_eq_true, beq_iff_eq] at h
    simp [merchOps, h.2]
  · intro r
    rfl
  · intro n x hx
    simp only [merchOps] at hx
    cases hn : rec.name with
    | val nm =>
      rw [hn] at hx
      simp only [Option.some.injEq] at hx
      subst hx
      simp [merchOps, jsStrEq, hn]
    | undef => rw [hn] at hx; cases hx
    | null => rw [hn] at hx; cases hx
  · intro n x hx r hlf hke
    simp only [merchOps] at hx
    cases hn : rec.name with
    | val nm =>
      rw [hn] at hx
      simp only [Option.some.injEq] at hx
      subst hx
      simp only [merchOps, Prod.mk.injEq] at hke
      have hlt : merchOps.look rec n r = true := by
        simp [merchOps, hn, jsStrEq, hke.1, hke.2]
      rw [hlf] at hlt
      cases hlt
    | undef => rw [hn] at hx; cases hx
    | null => rw [hn] at hx; cases hx
  · intro n nn _
    rfl
  · intro n nn _
    rfl

/-- The bills endpoint satisfies the upsert laws between two call times
provided the two calls derive the same bill id: its lookup key is the
clock-derived id. -/
theorem billsLaws (rec : BillRec) (t1 t2 : Nat)
    (hdt : deriveBillId rec.id rec.billNumber t1 = deriveBillId rec.id rec.billNumber t2) :
    KindLaws billsOps rec t1 t2 := by
  refine ⟨?_, ?_, ?_, ?_, ?_, ?_, ?_, ?_, ?_⟩
  · intro n f hf r
    simp only [billsOps, Option.some.injEq] at hf
    subst hf
    rfl
  · intro n f hf nn r
    simp only [billsOps, Option.some.injEq] at hf
    subst hf
    rfl
  · intro n f hf r
    simp only [billsOps, Option.some.injEq] at hf
    subst hf
    exact ⟨rfl, rfl⟩
  · intro n e h
    exact h
  · intro r
    simp [billsOps, hdt]
  · intro n x hx
    simp only [billsOps, Option.some.injEq] at hx
    subst hx
    simp [billsOps]
  · intro n x hx r hlf hke
    simp only [billsOps, Option.some.injEq] at hx
    subst hx
    simp only [billsOps, Prod.mk.injEq] at hke
    have hlt : billsOps.look rec n r = true := by
      simp [billsOps, hke.1, hke.2]
    rw [hlf] at hlt
    cases hlt
  · intro n nn _
    rfl
  · intro n nn _
    rfl

/-- Inversion of the inventory INSERT: it succeeds exactly when the
merchant name, the date and the serialized rows are all non-null. -/
theorem invIns_inv {rec : InvRec} {n : Nat} {x : InvRow}
    (hx : invOps.ins rec n = some x) :
    ∃ mn d b, rec.merchantName = JsField.val mn ∧ rec.date = JsField.val d
      ∧ stringifyJs rec.rows = some b
      ∧ x = ⟨truthyIntOr rec.id (Int.ofNat (n / 1000)), nullish rec.mid 1, mn, d, b, n, n⟩ := by
  cases hm : rec.merchantName with
  | val mn =>
    cases hd : rec.date with
    | val d =>
      cases hs : stringifyJs rec.rows with
      | some b =>
        refine ⟨mn, d, b, rfl, rfl, rfl, ?_⟩
        simp only [invOps, hm, hd, hs, Option.some.injEq] at hx
        exact hx.symm
      | none => simp [invOps, hm, hd, hs] at hx
    | undef => simp [invOps, hm, hd] at hx
    | null => simp [invOps, hm, hd] at hx
  | undef => simp [invOps, hm] at hx
  | null => simp [invOps, hm] at hx

/-- The inventory endpoint satisfies the upsert laws at any pair of
call times. -/
theorem invLaws (rec : InvRec) (t1 t2 : Nat) : KindLaws invOps rec t1 t2 := by
  refine ⟨?_, ?_, ?_, ?_, ?_, ?_, ?_, ?_, ?_⟩
  · intro n f hf r
    simp only [invOps] at hf
    cases hs : stringifyJs rec.rows with
    | none => rw [hs] at hf; cases hf
    | some b =>
      rw [hs] at hf
      simp only [Option.map_some', Option.some.injEq] at hf
      subst hf
      rfl
  · intro n f hf nn r
    simp only [invOps] at hf
    cases hs : stringifyJs rec.rows with
    | none => rw [hs] at hf; cases hf
    | some b =>
      rw [hs] at hf
      simp only [Option.map_some', Option.some.injEq] at hf
      subst hf
      rfl
  · intro n f hf r
    simp only [invOps] at hf
    cases hs : stringifyJs rec.rows with
    | none => rw [hs] at hf; cases hf
    | some b =>
      rw [hs] at hf
      simp only [Option.map_some', Option.some.injEq] at hf
      subst hf
      exact ⟨rfl, rfl⟩
  · intro n e h
    simp only [invOps, Bool.and_eq_true, beq_iff_eq] at h
    simp [invOps, h.2]
  · intro r
    rfl
  · intro n x hx
    obtain ⟨mn, d, b, hm, hd, hs, rfl⟩ := invIns_inv hx
    simp [invOps, hm, hd, jsStrEq]
  · intro n x hx r hlf hke
    obtain ⟨mn, d, b, hm, hd, hs, rfl⟩ := invIns_inv hx
    simp only [invOps, Prod.mk.injEq] at hke
    have hlt : invOps.look rec n r = true := by
      simp [invOps, hm, hd, jsStrEq, hke.1, hke.2.1, hke.2.2]
    rw [hlf] at hlt
    cases hlt
  · intro n nn h
    simp only [invOps, Option.isSome_map'] at h ⊢
    exact h
  · intro n nn h
    obtain ⟨x, hx⟩ := Option.isSome_iff_exists.mp h
    obtain ⟨mn, d, b, hm, hd, hs, rfl⟩ := invIns_inv hx
    simp [invOps, hs]

/-- One record of the supplies batch satisfies the upsert laws at any
pair of call times. -/
theorem supplyLaws (rec : SupplyRec) (t1 t2 : Nat) : KindLaws supplyOps rec t1 t2 := by
  refine ⟨?_, ?_, ?_, ?_, ?_, ?_, ?_, ?_, ?_⟩
  · intro n f hf r
    simp only [supplyOps, Option.some.injEq] at hf
    subst hf
    rfl
  · intro n f hf nn r
    simp only [supplyOps, Option.some.injEq] at hf
    subst hf
    rfl
  · intro n f hf r
    simp only [supplyOps, Option.some.injEq] at hf
    subst hf
    exact ⟨rfl, rfl⟩
  · intro n e h
    simp only [supplyOps, Bool.and_eq_true, beq_iff_eq] at h
    simp [supplyOps, h.2]
  · intro r
    rfl
  · intro n x hx
    simp only [supplyOps] at hx
    cases hn : rec.name with
    | val nm =>
      rw [hn] at hx
      simp only [Option.some.injEq] at hx
      subst hx
      simp [supplyOps, jsStrEq, hn]
    | undef => rw [hn] at hx; cases hx
    | null => rw [hn] at hx; cases hx
  · intro n x hx r hlf hke
    simp only [supplyOps] at hx
    cases hn : rec.name with
    | val nm =>
      rw [hn] at hx
      simp only [Option.some.injEq] at hx
      subst hx
      simp only [supplyOps, Prod.mk.injEq] at hke
      have hlt : supplyOps.look rec n r = true := by
        simp [supplyOps, hn, jsStrEq, hke.1, hke.2]
      rw [hlf] at hlt
      cases hlt
    | undef => rw [hn] at hx; cases hx
    | null => rw [hn] at hx; cases hx
  · intro n nn _
    rfl
  · intro n nn _
    rfl

/-- The production endpoint satisfies the upsert laws at any pair of
call times. -/
theorem prodLaws (rec : ProdRec) (t1 t2 : Nat) : KindLaws prodOps rec t1 t2 := by
  refine ⟨?_, ?_, ?_, ?_, ?_, ?_, ?_, ?_, ?_⟩
  · intro n f hf r
    simp only [prodOps, Option.some.injEq] at hf
    subst hf
    rfl
  · intro n f hf nn r
    simp only [prodOps, Option.some.injEq] at hf
    subst hf
    rfl
  · intro n f hf r
    simp only [prodOps, Option.some.injEq] at hf
    subst hf
    exact ⟨rfl, rfl⟩
  · intro n e h
    simp only [prodOps, Bool.and_eq_true, beq_iff_eq] at h
    simp [prodOps, h.2]
  · intro r
    rfl
  · intro n x hx
    simp only [prodOps] at hx
    cases hn : rec.date with
    | val d =>
      rw [hn] at hx
      simp only [Option.some.injEq] at hx
      subst hx
      simp [prodOps, jsStrEq, hn]
    | undef => rw [hn] at hx; cases hx
    | null => rw [hn] at hx; cases hx
  · intro n x hx r hlf hke
    simp only [prodOps] at hx
    cases hn : rec.date with
    | val d =>
      rw [hn] at hx
      simp only [Option.some.injEq] at hx
      subst hx
      simp only [prodOps, Prod.mk.injEq] at hke
      have hlt : prodOps.look rec n r = true := by
        simp [prodOps, hn, jsStrEq, hke.1, hke.2]
      rw [hlf] at hlt
      cases hlt
    | undef => rw [hn] at hx; cases hx
    | null => rw [hn] at hx; cases hx
  · intro n nn _
    rfl
  · intro n nn _
    rfl

/-- The products endpoint satisfies the upsert laws at any pair of call
times. -/
theorem productLaws (rec : ProductRec) (t1 t2 : Nat) : KindLaws productOps rec t1 t2 := by
  refine ⟨?_, ?_, ?_, ?_, ?_, ?_, ?_, ?_, ?_⟩
  · intro n f hf r
    simp only [productOps, Option.some.injEq] at hf
    subst hf
    rfl
  · intro n f hf nn r
    simp only [productOps, Option.some.injEq] at hf
    subst hf
    rfl
  · intro n f hf r
    simp only [productOps, Option.some.injEq] at hf
    subst hf
    exact ⟨rfl, rfl⟩
  · intro n e h
    simp only [productOps, Bool.and_eq_true, beq_iff_eq] at h
    simp [productOps, h.2]
  · intro r
    rfl
  · intro n x hx
    simp only [productOps] at hx
    cases hn : rec.name with
    | val nm =>
      rw [hn] at hx
      simp only [Option.some.injEq] at hx
      subst hx
      simp [productOps, jsStrEq, hn]
    | undef => rw [hn] at hx; cases hx
    | null => rw [hn] at hx; cases hx
  · intro n x hx r hlf hke
    simp only [productOps] at hx
    cases hn : rec.name with
    | val nm =>
      rw [hn] at hx
      simp only [Option.some.injEq] at hx
      subst hx
      simp only [productOps, Prod.mk.injEq] at hke
      have hlt : productOps.look rec n r = true := by
        simp [productOps, hn, jsStrEq, hke.1, hke.2]
      rw [hlf] at hlt
      cases hlt
    | undef => rw [hn] at hx; cases hx
    | null => rw [hn] at hx; cases hx
  · intro n nn _
    rfl
  · intro n nn _
    rfl

/-- Inversion of the bill-of-material UPDATE: it is well formed exactly
when the items array and the date are both non-null. -/
theorem bomUpd_inv {rec : BomRec} {n : Nat} {f : BomRow → BomRow}
    (hf : bomOps.updSet rec n = some f) :
    ∃ b d, rec.data = JsField.val b ∧ rec.date = JsField.val d
      ∧ f = fun r => { r with data := b, date := d, updated_at := n } := by
  cases hb : rec.data with
  | val b =>
    cases hd : rec.date with
    | val d =>
      refine ⟨b, d, rfl, rfl, ?_⟩
      simp only [bomOps, hb, hd, Option.some.injEq] at hf
      exact hf.symm
    | undef => simp [bomOps, hb, hd] at hf
    | null => simp [bomOps, hb, hd] at hf
  | undef => simp [bomOps, hb] at hf
  | null => simp [bomOps, hb] at hf

/-- Inversion of the bill-of-material INSERT: it succeeds exactly when
the name, the date and the items array are all non-null. -/
theorem bomIns_inv {rec : BomRec} {n : Nat} {x : BomRow}
    (hx : bomOps.ins rec n = some x) :
    ∃ nm d b, rec.name = JsField.val nm ∧ rec.date = JsField.val d
      ∧ rec.data = JsField.val b
      ∧ x = ⟨truthyIntOr rec.id (Int.ofNat (n / 1000)), nullish rec.mid 1, nm, d, b, n, n⟩ := by
  cases hn : rec.name with
  | val nm =>
    cases hd : rec.date with
    | val d =>
      cases hb : rec.data with
      | val b =>
        refine ⟨nm, d, b, rfl, rfl, rfl, ?_⟩
        simp only [bomOps, hn, hd, hb, Option.some.injEq] at hx
        exact hx.symm
      | undef => simp [bomOps, hn, hd, hb] at hx
      | null => simp [bomOps, hn, hd, hb] at hx
    | undef => simp [bomOps, hn, hd] at hx
    | null => simp [bomOps, hn, hd] at hx
  | undef => simp [bomOps, hn] at hx
  | null => simp [bomOps, hn] at hx

/-- The bill-of-material endpoint satisfies the upsert laws at any pair
of call times. -/
theorem bomLaws (rec : BomRec) (t1 t2 : Nat) : KindLaws bomOps rec t1 t2 := by
  refine ⟨?_, ?_, ?_, ?_, ?_, ?_, ?_, ?_, ?_⟩
  · intro n f hf r
    obtain ⟨b, d, hb, hd, rfl⟩ := bomUpd_inv hf
    rfl
  · intro n f hf nn r
    obtain ⟨b, d, hb, hd, rfl⟩ := bomUpd_inv hf
    rfl
  · intro n f hf r
    obtain ⟨b, d, hb, hd, rfl⟩ := bomUpd_inv hf
    exact ⟨rfl, rfl⟩
  · intro n e h
    simp only [bomOps, Bool.and_eq_true, beq_iff_eq] at h
    simp [bomOps, h.2]
  · intro r
    rfl
  · intro n x hx
    obtain ⟨nm, d, b, hn, hd, hb, rfl⟩ := bomIns_inv hx
    simp [bomOps, hn, jsStrEq]
  · intro n x hx r hlf hke
    obtain ⟨nm, d, b, hn, hd, hb, rfl⟩ := bomIns_inv hx
    simp only [bomOps, Prod.mk.injEq] at hke
    have hlt : bomOps.look rec n r = true := by
      simp [bomOps, hn, jsStrEq, hke.1, hke.2]
    rw [hlf] at hlt
    cases hlt
  · intro n nn h
    obtain ⟨f, hf⟩ := Option.isSome_iff_exists.mp h
    obtain ⟨b, d, hb, hd, rfl⟩ := bomUpd_inv hf
    simp [bomOps, hb, hd]
  · intro n nn h
    obtain ⟨x, hx⟩ := Option.isSome_iff_exists.mp h
    obtain ⟨nm, d, b, hn, hd, hb, rfl⟩ := bomIns_inv hx
    simp [bomOps, hb, hd]

/-- Uniqueness of the natural key is an invariant of one endpoint call:
the UPDATE branch rewrites rows without touching their keys, and the
INSERT branch only fires when the lookup rejected every stored row, so
the appended key is fresh. -/
theorem upsert_preserves_nodup {Rec Row Key : Type} [DecidableEq Key]
    (K : KindOps Rec Row Key) (rec : Rec) (now : Nat)
    (L : KindLaws K rec now now) (s : List Row)
    (hu : (s.map K.key).Nodup) :
    ((K.apply rec now s).map K.key).Nodup := by
  unfold KindOps.apply KindOps.run
  cases hf : s.find? (K.look rec now) with
  | some e =>
    cases hup : K.updSet rec now with
    | some f =>
      simp only
      rw [map_key_map_pres K.key _ s (fun r => by
        by_cases h : K.updWhere rec now e r = true
        · simp [h, L.keyf now f hup r]
        · simp [h])]
      exact hu
    | none => exact hu
  | none =>
    cases hi : K.ins rec now with
    | some x =>
      simp only
      refine nodup_key_append K.key s x hu fun r hr => ?_
      refine L.inskey now x hi r ?_
      cases hb : K.look rec now r
      · rfl
      · exact absurd hb (List.find?_eq_none.mp hf r hr)
    | none => exact hu

/-- A successful call followed by a second call with the same payload:
the second call finds the row the first call wrote (possibly via the
freshly inserted key), updates it in place keeping its primary key, and
the store keeps its size with exactly one row carrying the record's
natural key. -/
theorem upsert_idem {Rec Row Key : Type} [DecidableEq Key]
    (K : KindOps Rec Row Key) (rec : Rec) (t1 t2 : Nat)
    (L : KindLaws K rec t1 t2) (s : List Row) (r1 : Row) (s1 : List Row)
    (hu : (s.map K.key).Nodup)
    (h1 : K.run rec t1 s = some (r1, s1)) :
    ∃ r2 s2, K.run rec t2 s1 = some (r2, s2) ∧ K.rid r2 = K.rid r1 ∧ K.rmid r2 = K.rmid r1
      ∧ s2.length = s1.length
      ∧ (s2.filter fun r => decide (K.key r = K.key r1)).length = 1 := by
  unfold KindOps.run at h1
  cases hf : s.find? (K.look rec t1) with
  | some e =>
    rw [hf] at h1
    cases hup : K.updSet rec t1 with
    | none => rw [hup] at h1; cases h1
    | some f1 =>
      rw [hup] at h1
      simp only [Option.some.injEq, Prod.mk.injEq] at h1
      obtain ⟨hr1, hs1⟩ := h1
      have heL : K.look rec t1 e = true := List.find?_some hf
      have heM : e ∈ s := List.mem_of_find?_eq_some hf
      obtain ⟨f2, hf2⟩ := Option.isSome_iff_exists.mp
        (L.updTotal t1 t2 (by rw [hup]; rfl))
      have hg1look : ∀ nn r,
          K.look rec nn (if K.updWhere rec t1 e r = true then f1 r else r) = K.look rec nn r := by
        intro nn r
        by_cases h : K.updWhere rec t1 e r = true
        · simp [h, L.lookf t1 f1 hup nn r]
        · simp [h]
      have hg1key : ∀ r, K.key (if K.updWhere rec t1 e r = true then f1 r else r) = K.key r := by
        intro r
        by_cases h : K.updWhere rec t1 e r = true
        · simp [h, L.keyf t1 f1 hup r]
        · simp [h]
      have hfind2 : s1.find? (K.look rec t2) = some r1 := by
        rw [← hs1, find?_map_pres _ _ _ (hg1look t2),
          ← find?_congr_pred (K.look rec t1) (K.look rec t2) s L.det, hf]
        simp only [Option.map_some']
        rw [if_pos (L.self t1 e heL), hr1]
      have hrun2 : K.run rec t2 s1
          = some (f2 r1, s1.map fun r => if K.updWhere rec t2 r1 r = true then f2 r else r) := by
        unfold KindOps.run
        rw [hfind2, hf2]
      have hg2key : ∀ r, K.key (if K.updWhere rec t2 r1 r = true then f2 r else r) = K.key r := by
        intro r
        by_cases h : K.updWhere rec t2 r1 r = true
        · simp [h, L.keyf t2 f2 hf2 r]
        · simp [h]
      have hkey_r1 : K.key r1 = K.key e := by rw [← hr1]; exact L.keyf t1 f1 hup e
      have hc5 : (s1.filter fun r => decide (K.key r = K.key r1)).length = 1 := by
        rw [← hs1, hkey_r1, filter_key_map_pres K.key _ _ s hg1key,
          filter_key_single K.key s e hu heM]
        rfl
      refine ⟨f2 r1, _, hrun2, (L.idf t2 f2 hf2 r1).1, (L.idf t2 f2 hf2 r1).2,
        List.length_map _ _, ?_⟩
      rw [filter_key_map_pres K.key _ _ s1 hg2key, List.length_map]
      exact hc5
  | none =>
    rw [hf] at h1
    cases hi : K.ins rec t1 with
    | none => rw [hi] at h1; cases h1
    | some x =>
      rw [hi] at h1
      simp only [Option.some.injEq, Prod.mk.injEq] at h1
      obtain ⟨hr1, hs1⟩ := h1
      obtain ⟨f2, hf2⟩ := Option.isSome_iff_exists.mp
        (L.insUpd t1 t2 (by rw [hi]; rfl))
      have hnone : ∀ r ∈ s, K.look rec t1 r = false := by
        intro r hr
        cases hb : K.look rec t1 r
        · rfl
        · exact absurd hb (List.find?_eq_none.mp hf r hr)
      have hfind2 : s1.find? (K.look rec t2) = some x := by
        rw [← hs1, List.find?_append]
        have hsn : s.find? (K.look rec t2) = none := by
          rw [← find?_congr_pred (K.look rec t1) (K.look rec t2) s L.det, hf]
        have hxt : K.look rec t2 x = true := L.det x ▸ L.lookx t1 x hi
        rw [hsn]
        simp [hxt]
      have hrun2 : K.run rec t2 s1
          = some (f2 x, s1.map fun r => if K.updWhere rec t2 x r = true then f2 r else r) := by
        unfold KindOps.run
        rw [hfind2, hf2]
      have hg2key : ∀ r, K.key (if K.updWhere rec t2 x r = true then f2 r else r) = K.key r := by
        intro r
        by_cases h : K.updWhere rec t2 x r = true
        · simp [h, L.keyf t2 f2 hf2 r]
        · simp [h]
      have hc5 : (s1.filter fun r => decide (K.key r = K.key r1)).length = 1 := by
        rw [← hs1, ← hr1, List.filter_append,
          filter_key_nil K.key (K.key x) s (fun r hr => L.inskey t1 x hi r (hnone r hr))]
        simp
      refine ⟨f2 x, _, hrun2, ?_, ?_, List.length_map _ _, ?_⟩
      · rw [(L.idf t2 f2 hf2 x).1, hr1]
      · rw [(L.idf t2 f2 hf2 x).2, hr1]
      · rw [filter_key_map_pres K.key _ _ s1 hg2key, List.length_map]
        exact hc5

/-- C1: for every merchant-scoped kind (merchants, bills, inventory,
supply, production, products, bill-of-material) and every sync call,
if no two stored rows share the same (natural key, mid) then the same
holds after the call: the lookup-by-(naturalKey, mid)-then-update-or-
insert of each handler preserves natural-key uniqueness as an invariant
of the store.  For bills the natural key is the (id, mid) primary key
itself, which is the key its lookup uses. -/
theorem c1_natural_key_uniqueness :
    (∀ (rec : MerchRec) (now : Nat) (s : List MerchRow),
      (s.map merchOps.key).Nodup → ((merchOps.apply rec now s).map merchOps.key).Nodup)
    ∧ (∀ (rec : BillRec) (now : Nat) (s : List BillRow),
      (s.map billsOps.key).Nodup → ((billsOps.apply rec now s).map billsOps.key).Nodup)
    ∧ (∀ (rec : InvRec) (now : Nat) (s : List InvRow),
      (s.map invOps.key).Nodup → ((invOps.apply rec now s).map invOps.key).Nodup)
    ∧ (∀ (rec : SupplyRec) (now : Nat) (s : List SupplyRow),
      (s.map supplyOps.key).Nodup → ((supplyOps.apply rec now s).map supplyOps.key).Nodup)
    ∧ (∀ (rec : ProdRec) (now : Nat) (s : List ProdRow),
      (s.map prodOps.key).Nodup → ((prodOps.apply rec now s).map prodOps.key).Nodup)
    ∧ (∀ (rec : ProductRec) (now : Nat) (s : List ProductRow),
      (s.map productOps.key).Nodup → ((productOps.apply rec now s).map productOps.key).Nodup)
    ∧ (∀ (rec : BomRec) (now : Nat) (s : List BomRow),
      (s.map bomOps.key).Nodup → ((bomOps.apply rec now s).map bomOps.key).Nodup) :=
  ⟨fun rec now s hu => upsert_preserves_nodup merchOps rec now (merchLaws rec now now) s hu,
   fun rec now s hu => upsert_preserves_nodup billsOps rec now (billsLaws rec now now rfl) s hu,
   fun rec now s hu => upsert_preserves_nodup invOps rec now (invLaws rec now now) s hu,
   fun rec now s hu => upsert_preserves_nodup supplyOps rec now (supplyLaws rec now now) s hu,
   fun rec now s hu => upsert_preserves_nodup prodOps rec now (prodLaws rec now now) s hu,
   fun rec now s hu => upsert_preserves_nodup productOps rec now (productLaws rec now now) s hu,
   fun rec now s hu => upsert_preserves_nodup bomOps rec now (bomLaws rec now now) s hu⟩

/-- Witness for C1: one concrete call of each kind starting from the
empty store, whose key list is trivially Nodup. -/
theorem c1_natural_key_uniqueness_witness :
    ((merchOps.apply ⟨.undef, .undef, .val "m"⟩ 3000 []).map merchOps.key).Nodup
    ∧ ((billsOps.apply ⟨.val 7, .undef, .val 0, "blob"⟩ 3000 []).map billsOps.key).Nodup
    ∧ ((invOps.apply ⟨.undef, .undef, .val "m", .val "2024-01-01", .val "rows1"⟩ 3000
        []).map invOps.key).Nodup
    ∧ ((supplyOps.apply ⟨.undef, .undef, .val "sugar"⟩ 3000 []).map supplyOps.key).Nodup
    ∧ ((prodOps.apply ⟨.undef, .undef, .val "2024-01-01", "blob"⟩ 3000
        []).map prodOps.key).Nodup
    ∧ ((productOps.apply ⟨.undef, .undef, .val "tea", .val 10, .undef, .undef, .undef,
        .undef, .undef, .undef⟩ 3000 []).map productOps.key).Nodup
    ∧ ((bomOps.apply ⟨.undef, .undef, .val "cake", .val "2024-01-01", .val "items"⟩ 3000
        []).map bomOps.key).Nodup :=
  ⟨c1_natural_key_uniqueness.1 _ 3000 [] (by decide),
   c1_natural_key_uniqueness.2.1 _ 3000 [] (by decide),
   c1_natural_key_uniqueness.2.2.1 _ 3000 [] (by decide),
   c1_natural_key_uniqueness.2.2.2.1 _ 3000 [] (by decide),
   c1_natural_key_uniqueness.2.2.2.2.1 _ 3000 [] (by decide),
   c1_natural_key_uniqueness.2.2.2.2.2.1 _ 3000 [] (by decide),
   c1_natural_key_uniqueness.2.2.2.2.2.2 _ 3000 [] (by decide)⟩

/-- C2 counterexample: the bills endpoint is not idempotent for a
payload with no usable id.  With no id and billNumber "x" (parseInt
yields NaN), the first call at 1000000 ms derives id 1000 and inserts;
the identical call at 2000000 ms derives id 2000, finds no row, and
inserts again: the persisted (id, mid) differs between the two calls
and the second call creates a duplicate row. -/
theorem c2_idempotence_counterexample :
    billsOps.run ⟨.undef, .val "x", .undef, "d"⟩ 1000000 []
      = some (⟨1000, 1, "d", 1000000⟩, [⟨1000, 1, "d", 1000000⟩])
    ∧ billsOps.run ⟨.undef, .val "x", .undef, "d"⟩ 2000000 [⟨1000, 1, "d", 1000000⟩]
      = some (⟨2000, 1, "d", 2000000⟩,
          [⟨1000, 1, "d", 1000000⟩, ⟨2000, 1, "d", 2000000⟩]) := by
  decide

/-- C2 amended: syncing the identical payload twice in succession is
idempotent for merchants, inventory, supply, production, products and
bill-of-material at any pair of call times, and for bills whenever the
two calls derive the same bill id (which holds when the payload has a
truthy id or a bill number parsing to a nonzero integer, or when both
calls fall in the same clock second): starting from a store whose
natural keys are unique, if the first call succeeds then the second
also succeeds, its persisted row has the same (id, mid), the store does
not grow, and exactly one stored row carries that natural key. -/
theorem c2_idempotence_amended :
    (∀ (rec : MerchRec) (t1 t2 : Nat) (s : List MerchRow) (r1 : MerchRow) (s1 : List MerchRow),
      (s.map merchOps.key).Nodup → merchOps.run rec t1 s = some (r1, s1) →
      ∃ r2 s2, merchOps.run rec t2 s1 = some (r2, s2) ∧ r2.id = r1.id ∧ r2.mid = r1.mid
        ∧ s2.length = s1.length
        ∧ (s2.filter fun r => decide (merchOps.key r = merchOps.key r1)).length = 1)
    ∧ (∀ (rec : BillRec) (t1 t2 : Nat) (s : List BillRow) (r1 : BillRow) (s1 : List BillRow),
      deriveBillId rec.id rec.billNumber t1 = deriveBillId rec.id rec.billNumber t2 →
      (s.map billsOps.key).Nodup → billsOps.run rec t1 s = some (r1, s1) →
      ∃ r2 s2, billsOps.run rec t2 s1 = some (r2, s2) ∧ r2.id = r1.id ∧ r2.mid = r1.mid
        ∧ s2.length = s1.length
        ∧ (s2.filter fun r => decide (billsOps.key r = billsOps.key r1)).length = 1)
    ∧ (∀ (rec : InvRec) (t1 t2 : Nat) (s : List InvRow) (r1 : InvRow) (s1 : List InvRow),
      (s.map invOps.key).Nodup → invOps.run rec t1 s = some (r1, s1) →
      ∃ r2 s2, invOps.run rec t2 s1 = some (r2, s2) ∧ r2.id = r1.id ∧ r2.mid = r1.mid
        ∧ s2.length = s1.length
        ∧ (s2.filter fun r => decide (invOps.key r = invOps.key r1)).length = 1)
    ∧ (∀ (rec : SupplyRec) (t1 t2 : Nat) (s : List SupplyRow) (r1 : SupplyRow) (s1 : List SupplyRow),
      (s.map supplyOps.key).Nodup → supplyOps.run rec t1 s = some (r1, s1) →
      ∃ r2 s2, supplyOps.run rec t2 s1 = some (r2, s2) ∧ r2.id = r1.id ∧ r2.mid = r1.mid
        ∧ s2.length = s1.length
        ∧ (s2.filter fun r => decide (supplyOps.key r = supplyOps.key r1)).length = 1)
    ∧ (∀ (rec : ProdRec) (t1 t2 : Nat) (s : List ProdRow) (r1 : ProdRow) (s1 : List ProdRow),
      (s.map prodOps.key).Nodup → prodOps.run rec t1 s = some (r1, s1) →
      ∃ r2 s2, prodOps.run rec t2 s1 = some (r2, s2) ∧ r2.id = r1.id ∧ r2.mid = r1.mid
        ∧ s2.length = s1.length
        ∧ (s2.filter fun r => decide (prodOps.key r = prodOps.key r1)).length = 1)
    ∧ (∀ (rec : ProductRec) (t1 t2 : Nat) (s : List ProductRow) (r1 : ProductRow) (s1 : List ProductRow),
      (s.map productOps.key).Nodup → productOps.run rec t1 s = some (r1, s1) →
      ∃ r2 s2, productOps.run rec t2 s1 = some (r2, s2) ∧ r2.id = r1.id ∧ r2.mid = r1.mid
        ∧ s2.length = s1.length
        ∧ (s2.filter fun r => decide (productOps.key r = productOps.key r1)).length = 1)
    ∧ (∀ (rec : BomRec) (t1 t2 : Nat) (s : List BomRow) (r1 : BomRow) (s1 : List BomRow),
      (s.map bomOps.key).Nodup → bomOps.run rec t1 s = some (r1, s1) →
      ∃ r2 s2, bomOps.run rec t2 s1 = some (r2, s2) ∧ r2.id = r1.id ∧ r2.mid = r1.mid
        ∧ s2.length = s1.length
        ∧ (s2.filter fun r => decide (bomOps.key r = bomOps.key r1)).length = 1) :=
  ⟨fun rec t1 t2 s r1 s1 hu h1 => upsert_idem merchOps rec t1 t2 (merchLaws rec t1 t2) s r1 s1 hu h1,
   fun rec t1 t2 s r1 s1 hdt hu h1 => upsert_idem billsOps rec t1 t2 (billsLaws rec t1 t2 hdt) s r1 s1 hu h1,
   fun rec t1 t2 s r1 s1 hu h1 => upsert_idem invOps rec t1 t2 (invLaws rec t1 t2) s r1 s1 hu h1,
   fun rec t1 t2 s r1 s1 hu h1 => upsert_idem supplyOps rec t1 t2 (supplyLaws rec t1 t2) s r1 s1 hu h1,
   fun rec t1 t2 s r1 s1 hu h1 => upsert_idem prodOps rec t1 t2 (prodLaws rec t1 t2) s r1 s1 hu h1,
   fun rec t1 t2 s r1 s1 hu h1 => upsert_idem productOps rec t1 t2 (productLaws rec t1 t2) s r1 s1 hu h1,
   fun rec t1 t2 s r1 s1 hu h1 => upsert_idem bomOps rec t1 t2 (bomLaws rec t1 t2) s r1 s1 hu h1⟩

/-- Witness for C2: for each kind, a first call on the empty store at
5000 ms followed by an identical call at 9000 ms; the bills payload
carries an explicit id 7, so both calls derive the same bill id. -/
theorem c2_idempotence_amended_witness :
    (∃ (r2 : MerchRow) (s2 : List MerchRow),
      merchOps.run ⟨.undef, .undef, .val "m"⟩ 9000 [⟨5, 1, "m", 5000, 5000⟩] = some (r2, s2)
      ∧ r2.id = 5 ∧ r2.mid = 1 ∧ s2.length = 1
      ∧ (s2.filter fun r => decide (merchOps.key r = merchOps.key (⟨5, 1, "m", 5000, 5000⟩ : MerchRow))).length = 1)
    ∧ (∃ (r2 : BillRow) (s2 : List BillRow),
      billsOps.run ⟨.val 7, .undef, .undef, "d"⟩ 9000 [⟨7, 1, "d", 5000⟩] = some (r2, s2)
      ∧ r2.id = 7 ∧ r2.mid = 1 ∧ s2.length = 1
      ∧ (s2.filter fun r => decide (billsOps.key r = billsOps.key (⟨7, 1, "d", 5000⟩ : BillRow))).length = 1)
    ∧ (∃ (r2 : InvRow) (s2 : List InvRow),
      invOps.run ⟨.undef, .undef, .val "m", .val "dt", .val "b"⟩ 9000
          [⟨5, 1, "m", "dt", "b", 5000, 5000⟩] = some (r2, s2)
      ∧ r2.id = 5 ∧ r2.mid = 1 ∧ s2.length = 1
      ∧ (s2.filter fun r => decide (invOps.key r
          = invOps.key (⟨5, 1, "m", "dt", "b", 5000, 5000⟩ : InvRow))).length = 1)
    ∧ (∃ (r2 : SupplyRow) (s2 : List SupplyRow),
      supplyOps.run ⟨.undef, .undef, .val "s"⟩ 9000 [⟨5, 1, "s", 5000, 5000⟩] = some (r2, s2)
      ∧ r2.id = 5 ∧ r2.mid = 1 ∧ s2.length = 1
      ∧ (s2.filter fun r => decide (supplyOps.key r
          = supplyOps.key (⟨5, 1, "s", 5000, 5000⟩ : SupplyRow))).length = 1)
    ∧ (∃ (r2 : ProdRow) (s2 : List ProdRow),
      prodOps.run ⟨.undef, .undef, .val "dt", "blob"⟩ 9000
          [⟨5, 1, "dt", "blob", 5000, 5000⟩] = some (r2, s2)
      ∧ r2.id = 5 ∧ r2.mid = 1 ∧ s2.length = 1
      ∧ (s2.filter fun r => decide (prodOps.key r
          = prodOps.key (⟨5, 1, "dt", "blob", 5000, 5000⟩ : ProdRow))).length = 1)
    ∧ (∃ (r2 : ProductRow) (s2 : List ProductRow),
      productOps.run ⟨.undef, .undef, .val "p", .undef, .undef, .undef, .undef, .undef,
          .undef, .undef⟩ 9000 [⟨5, 1, "p", 0, 0, 0, "unit", 0, 0, none, 5000, 5000⟩] = some (r2, s2)
      ∧ r2.id = 5 ∧ r2.mid = 1 ∧ s2.length = 1
      ∧ (s2.filter fun r => decide (productOps.key r
          = productOps.key (⟨5, 1, "p", 0, 0, 0, "unit", 0, 0, none, 5000, 5000⟩ : ProductRow))).length = 1)
    ∧ (∃ (r2 : BomRow) (s2 : List BomRow),
      bomOps.run ⟨.undef, .undef, .val "c", .val "dt", .val "i"⟩ 9000
          [⟨5, 1, "c", "dt", "i", 5000, 5000⟩] = some (r2, s2)
      ∧ r2.id = 5 ∧ r2.mid = 1 ∧ s2.length = 1
      ∧ (s2.filter fun r => decide (bomOps.key r
          = bomOps.key (⟨5, 1, "c", "dt", "i", 5000, 5000⟩ : BomRow))).length = 1) :=
  ⟨c2_idempotence_amended.1 ⟨.undef, .undef, .val "m"⟩ 5000 9000 []
      ⟨5, 1, "m", 5000, 5000⟩ [⟨5, 1, "m", 5000, 5000⟩] (by decide) (by decide),
   c2_idempotence_amended.2.1 ⟨.val 7, .undef, .undef, "d"⟩ 5000 9000 []
      ⟨7, 1, "d", 5000⟩ [⟨7, 1, "d", 5000⟩] (by decide) (by decide) (by decide),
   c2_idempotence_amended.2.2.1 ⟨.undef, .undef, .val "m", .val "dt", .val "b"⟩ 5000 9000 []
      ⟨5, 1, "m", "dt", "b", 5000, 5000⟩ [⟨5, 1, "m", "dt", "b", 5000, 5000⟩] (by decide) (by decide),
   c2_idempotence_amended.2.2.2.1 ⟨.undef, .undef, .val "s"⟩ 5000 9000 []
      ⟨5, 1, "s", 5000, 5000⟩ [⟨5, 1, "s", 5000, 5000⟩] (by decide) (by decide),
   c2_idempotence_amended.2.2.2.2.1 ⟨.undef, .undef, .val "dt", "blob"⟩ 5000 9000 []
      ⟨5, 1, "dt", "blob", 5000, 5000⟩ [⟨5, 1, "dt", "blob", 5000, 5000⟩] (by decide) (by decide),
   c2_idempotence_amended.2.2.2.2.2.1 ⟨.undef, .undef, .val "p", .undef, .undef, .undef, .undef,
        .undef, .undef, .undef⟩ 5000 9000 []
      ⟨5, 1, "p", 0, 0, 0, "unit", 0, 0, none, 5000, 5000⟩
      [⟨5, 1, "p", 0, 0, 0, "unit", 0, 0, none, 5000, 5000⟩] (by decide) (by decide),
   c2_idempotence_amended.2.2.2.2.2.2 ⟨.undef, .undef, .val "c", .val "dt", .val "i"⟩ 5000 9000 []
      ⟨5, 1, "c", "dt", "i", 5000, 5000⟩ [⟨5, 1, "c", "dt", "i", 5000, 5000⟩] (by decide) (by decide)⟩

/-- C3: the persisted bill row's merchant id is `billData.mid ?? 1`:
the payload's mid whenever that field is present and non-null —
including an explicit 0, which is stored as 0 — and the default 1
exactly when the field is absent or null (server.js line 187). -/
theorem c3_merchant_id_resolution :
    (∀ (rec : BillRec) (now : Nat) (s : List BillRow) (r : BillRow) (s2 : List BillRow),
      billsOps.run rec now s = some (r, s2) → r.mid = nullish rec.mid 1)
    ∧ (∀ v : Int, nullish (JsField.val v) 1 = v)
    ∧ nullish (JsField.undef : JsField Int) 1 = 1
    ∧ nullish (JsField.null : JsField Int) 1 = 1 := by
  refine ⟨?_, fun v => rfl, rfl, rfl⟩
  intro rec now s r s2 h
  unfold KindOps.run at h
  cases hf : s.find? (billsOps.look rec now) with
  | some e =>
    rw [hf] at h
    have he : billsOps.look rec now e = true := List.find?_some hf
    simp only [billsOps, Bool.and_eq_true, beq_iff_eq] at he
    simp only [billsOps, Option.some.injEq, Prod.mk.injEq] at h
    rw [← h.1]
    exact he.2
  | none =>
    rw [hf] at h
    simp only [billsOps, Option.some.injEq, Prod.mk.injEq] at h
    rw [← h.1]

/-- Witness for C3: a bill with an explicit mid of 0 persists mid 0. -/
theorem c3_merchant_id_resolution_witness :
    (⟨9, 0, "d", 1000⟩ : BillRow).mid = nullish (JsField.val (0 : Int)) 1 :=
  c3_merchant_id_resolution.1 ⟨.val 9, .undef, .val 0, "d"⟩ 1000 []
    ⟨9, 0, "d", 1000⟩ [⟨9, 0, "d", 1000⟩] (by decide)

/-- C9 counterexample: a client-supplied explicit id is not used
whenever it is present.  With an explicit id 0 and bill number "5", the
derivation `billData.id || parseInt(billData.billNumber) || timestamp`
treats the present id 0 as falsy and the bill persists with id 5, not
with the supplied id 0. -/
theorem c9_bill_id_counterexample :
    billsOps.run ⟨.val 0, .val "5", .undef, "d"⟩ 7000 []
      = some (⟨5, 1, "d", 7000⟩, [⟨5, 1, "d", 7000⟩]) ∧ (5 : Int) ≠ 0 := by
  decide

/-- C9 amended: the persisted bill id is exactly
`billData.id || parseInt(billData.billNumber) || Math.floor(now / 1000)`:
the payload's explicit id is used when it is present and nonzero; else
the integer parse of the bill number when it parses to a nonzero value;
else the whole-seconds timestamp (an id of 0, a null or absent id, a
bill number parsing to NaN or to 0 all fall through). -/
theorem c9_bill_id_amended :
    (∀ (rec : BillRec) (now : Nat) (s : List BillRow) (r : BillRow) (s2 : List BillRow),
      billsOps.run rec now s = some (r, s2) → r.id = deriveBillId rec.id rec.billNumber now)
    ∧ (∀ (a : Int) (bn : JsField String) (now : Nat), a ≠ 0 →
        deriveBillId (JsField.val a) bn now = a)
    ∧ (∀ (id : JsField Int) (bn : JsField String) (now : Nat) (n : Int),
        truthyIntOr id 0 = 0 → parseIntJS bn = some n → n ≠ 0 →
        deriveBillId id bn now = n)
    ∧ (∀ (id : JsField Int) (bn : JsField String) (now : Nat),
        truthyIntOr id 0 = 0 → (parseIntJS bn = none ∨ parseIntJS bn = some 0) →
        deriveBillId id bn now = Int.ofNat (now / 1000)) := by
  refine ⟨?_, ?_, ?_, ?_⟩
  · intro rec now s r s2 h
    unfold KindOps.run at h
    cases hf : s.find? (billsOps.look rec now) with
    | some e =>
      rw [hf] at h
      have he : billsOps.look rec now e = true := List.find?_some hf
      simp only [billsOps, Bool.and_eq_true, beq_iff_eq] at he
      simp only [billsOps, Option.some.injEq, Prod.mk.injEq] at h
      rw [← h.1]
      exact he.1
    | none =>
      rw [hf] at h
      simp only [billsOps, Option.some.injEq, Prod.mk.injEq] at h
      rw [← h.1]
  · intro a bn now ha
    simp [deriveBillId, ha]
  · intro id bn now n hid hbn hn
    cases id with
    | val a =>
      simp only [truthyIntOr] at hid
      by_cases ha : a = 0
      · subst ha
        simp [deriveBillId, deriveFromNumber, hbn, hn]
      · rw [if_neg ha] at hid
        exact absurd hid ha
    | undef => simp [deriveBillId, deriveFromNumber, hbn, hn]
    | null => simp [deriveBillId, deriveFromNumber, hbn, hn]
  · intro id bn now hid hbn
    have hd : deriveFromNumber bn now = Int.ofNat (now / 1000) := by
      rcases hbn with hb | hb
      · simp [deriveFromNumber, hb]
      · simp [deriveFromNumber, hb]
    cases id with
    | val a =>
      simp only [truthyIntOr] at hid
      by_cases ha : a = 0
      · subst ha
        simp [deriveBillId, hd]
      · rw [if_neg ha] at hid
        exact absurd hid ha
    | undef => simp [deriveBillId, hd]
    | null => simp [deriveBillId, hd]

/-- Witness for C9: a bill synced with id 0 and bill number "5" at
7000 ms persists the derived id 5. -/
theorem c9_bill_id_amended_witness :
    (⟨5, 1, "d", 7000⟩ : BillRow).id
      = deriveBillId (JsField.val 0) (JsField.val "5") 7000 :=
  c9_bill_id_amended.1 ⟨.val 0, .val "5", .undef, "d"⟩ 7000 []
    ⟨5, 1, "d", 7000⟩ [⟨5, 1, "d", 7000⟩] (by decide)

/-- Inversion of the inventory UPDATE: it is well formed exactly when
the serialized rows value is non-null. -/
theorem invUpd_inv {rec : InvRec} {n : Nat} {f : InvRow → InvRow}
    (hf : invOps.updSet rec n = some f) :
    ∃ b, stringifyJs rec.rows = some b
      ∧ f = fun q => { q with data := b, updated_at := n } := by
  cases hs : stringifyJs rec.rows with
  | some b =>
    refine ⟨b, rfl, ?_⟩
    simp only [invOps, hs, Option.map_some', Option.some.injEq] at hf
    exact hf.symm
  | none => simp [invOps, hs] at hf

/-- C5 counterexample: the bills update does not refresh updated_at —
the bills table has no updated_at column at all (server.js lines 31-40)
— and instead overwrites created_at with the current time
(`SET data = $1, created_at = CURRENT_TIMESTAMP`, line 199): after
inserting bill 42 at 1000000 ms and re-syncing it at 5000000 ms, the
stored row's created_at is 5000000, no longer the insertion time. -/
theorem c5_update_timestamps_counterexample :
    billsOps.run ⟨.val 42, .undef, .undef, "d1"⟩ 1000000 []
      = some (⟨42, 1, "d1", 1000000⟩, [⟨42, 1, "d1", 1000000⟩])
    ∧ billsOps.run ⟨.val 42, .undef, .undef, "d2"⟩ 5000000 [⟨42, 1, "d1", 1000000⟩]
      = some (⟨42, 1, "d2", 5000000⟩, [⟨42, 1, "d2", 5000000⟩])
    ∧ (5000000 : Nat) ≠ 1000000 := by
  decide

/-- A concrete stored registration row for hostname "h1": merchant id
100, edit password "paybean", enableMrpPrice explicitly false. -/
def regRow0 : RegRow :=
  ⟨1, none, "h1", "2024-01-01", none, none, none, none, none, none, none, none, false,
    some false, some false, some false, 100, "paybean", some true, some true, some true,
    some true, some true, 50, 50⟩

/-- A concrete re-sync payload for hostname "h1" that omits every flag
and supplies a different edit password. -/
def regRec0 : RegRec :=
  ⟨.undef, .val "h1", .val "2024-01-01", .undef, .undef, .undef, .undef, .undef, .undef,
    .undef, .undef, .undef, .undef, .undef, .undef, .undef, .undef, .undef, .undef,
    .undef, .val "evil"⟩

/-- The row `regRow0` after the update `regUpdate regRec0 9`: every
omitted flag is reset to its per-field default (enableMrpPrice back to
true), while id, merchant id, hostname, registration date, edit
password and created_at are untouched. -/
def regRow0upd : RegRow :=
  ⟨1, none, "h1", "2024-01-01", none, none, none, none, none, none, none, none, false,
    some true, some false, some false, 100, "paybean", some true, some true, some true,
    some true, some true, 50, 9⟩

/-- C7: syncing an inventory record whose (merchantName, date, mid)
natural key already exists replaces the stored payload entirely with
the incoming serialized rows value and leaves exactly one row for that
key: in a store with unique natural keys, after the call the rows
matching the found row's key are exactly the found row with its data
overwritten by the new payload (and its updated_at refreshed) — no
trace of the previous payload remains, and the store does not grow. -/
theorem c7_inventory_full_replace :
    ∀ (rec : InvRec) (now : Nat) (s : List InvRow) (e : InvRow) (b2 : String)
      (r : InvRow) (s2 : List InvRow),
      (s.map invOps.key).Nodup →
      s.find? (invOps.look rec now) = some e →
      rec.rows = JsField.val b2 →
      invOps.run rec now s = some (r, s2) →
      r = { e with data := b2, updated_at := now }
      ∧ s2.length = s.length
      ∧ s2.filter (fun q => decide (invOps.key q = invOps.key e))
          = [{ e with data := b2, updated_at := now }] := by
  intro rec now s e b2 r s2 hu hf hb2 h
  unfold KindOps.run at h
  rw [hf] at h
  have hup : invOps.updSet rec now
      = some (fun q => { q with data := b2, updated_at := now }) := by
    simp [invOps, stringifyJs, hb2]
  rw [hup] at h
  simp only [Option.some.injEq, Prod.mk.injEq] at h
  obtain ⟨hr, hs⟩ := h
  have heL : invOps.look rec now e = true := List.find?_some hf
  have heM : e ∈ s := List.mem_of_find?_eq_some hf
  have hW : invOps.updWhere rec now e e = true := (invLaws rec now now).self now e heL
  have hgkey : ∀ q, invOps.key (if invOps.updWhere rec now e q = true
      then { q with data := b2, updated_at := now } else q) = invOps.key q := by
    intro q
    by_cases hq : invOps.updWhere rec now e q = true
    · rw [if_pos hq]
      rfl
    · rw [if_neg hq]
  refine ⟨hr.symm, ?_, ?_⟩
  · rw [← hs]
    exact List.length_map _ _
  · rw [← hs, filter_key_map_pres invOps.key _ _ s hgkey,
      filter_key_single invOps.key s e hu heM]
    simp only [List.map_cons, List.map_nil]
    rw [if_pos hW]

/-- Witness for C7: payload "rows1" for key (A, 2024-01-01, 1) is
stored at 100 ms, then payload "rows2" for the same key at 200 ms: the
single stored row for the key carries exactly "rows2". -/
theorem c7_inventory_full_replace_witness :
    (⟨5, 1, "A", "2024-01-01", "rows2", 100, 200⟩ : InvRow)
      = { (⟨5, 1, "A", "2024-01-01", "rows1", 100, 100⟩ : InvRow) with
            data := "rows2", updated_at := 200 }
    ∧ [(⟨5, 1, "A", "2024-01-01", "rows2", 100, 200⟩ : InvRow)].length
      = [(⟨5, 1, "A", "2024-01-01", "rows1", 100, 100⟩ : InvRow)].length
    ∧ [(⟨5, 1, "A", "2024-01-01", "rows2", 100, 200⟩ : InvRow)].filter
        (fun q => decide (invOps.key q
          = invOps.key (⟨5, 1, "A", "2024-01-01", "rows1", 100, 100⟩ : InvRow)))
      = [{ (⟨5, 1, "A", "2024-01-01", "rows1", 100, 100⟩ : InvRow) with
            data := "rows2", updated_at := 200 }] :=
  c7_inventory_full_replace ⟨.undef, .undef, .val "A", .val "2024-01-01", .val "rows2"⟩
    200 [⟨5, 1, "A", "2024-01-01", "rows1", 100, 100⟩]
    ⟨5, 1, "A", "2024-01-01", "rows1", 100, 100⟩ "rows2"
    ⟨5, 1, "A", "2024-01-01", "rows2", 100, 200⟩
    [⟨5, 1, "A", "2024-01-01", "rows2", 100, 200⟩]
    (by decide) (by decide) (by decide) (by decide)

/-- Three supply records, the second with a null name, each paired with
its call time (the spec's batch-partial-failure scenario). -/
def suppliesBatch0 : List (SupplyRec × Nat) :=
  [(⟨.undef, .undef, .val "a"⟩, 10000), (⟨.undef, .undef, JsField.null⟩, 11000),
    (⟨.undef, .undef, .val "c"⟩, 12000)]

/-- C8: the supplies batch coordinator processes records sequentially
and independently.  For every batch, processed + failed equals the
batch length and the success flag is true exactly when zero records
failed; a failing record leaves the store seen by the remaining records
unchanged and only appends its name to the errors array; and the
concrete 3-record batch with a null name in the 2nd yields processed 2,
failed 1, success false, with the 1st and 3rd records persisted. -/
theorem c8_supply_batch :
    (∀ (recs : List (SupplyRec × Nat)) (s : List SupplyRow),
      batchProcessed (syncSupplies recs s) + batchFailed (syncSupplies recs s) = recs.length)
    ∧ (∀ (recs : List (SupplyRec × Nat)) (s : List SupplyRow),
      batchSuccess (syncSupplies recs s) = true ↔ batchFailed (syncSupplies recs s) = 0)
    ∧ (∀ (rec : SupplyRec) (t : Nat) (rest : List (SupplyRec × Nat)) (s : List SupplyRow),
      supplyOps.run rec t s = none →
      syncSupplies ((rec, t) :: rest) s
        = ⟨(syncSupplies rest s).store, (syncSupplies rest s).results,
            rec.name :: (syncSupplies rest s).errs⟩)
    ∧ syncSupplies suppliesBatch0 []
      = ⟨[⟨10, 1, "a", 10000, 10000⟩, ⟨12, 1, "c", 12000, 12000⟩],
          [⟨10, 1, "a", 10000, 10000⟩, ⟨12, 1, "c", 12000, 12000⟩], [JsField.null]⟩
    ∧ batchProcessed (syncSupplies suppliesBatch0 []) = 2
    ∧ batchFailed (syncSupplies suppliesBatch0 []) = 1
    ∧ batchSuccess (syncSupplies suppliesBatch0 []) = false := by
  refine ⟨?_, ?_, ?_, by decide, by decide, by decide, by decide⟩
  · intro recs
    induction recs with
    | nil => intro s; rfl
    | cons p rest ih =>
      intro s
      obtain ⟨rec, t⟩ := p
      cases h : supplyOps.run rec t s with
      | some rs =>
        obtain ⟨row, s1⟩ := rs
        simp only [syncSupplies, h, batchProcessed, batchFailed, List.length_cons]
        have := ih s1
        simp only [batchProcessed, batchFailed] at this
        omega
      | none =>
        simp only [syncSupplies, h, batchProcessed, batchFailed, List.length_cons]
        have := ih s
        simp only [batchProcessed, batchFailed] at this
        omega
  · intro recs s
    simp [batchSuccess, batchFailed]
  · intro rec t rest s h
    simp only [syncSupplies, h]

/-- Witness for C8: a one-record batch whose record has a null name
fails that record, persists nothing, and reports the name among the
errors. -/
theorem c8_supply_batch_witness :
    syncSupplies [(⟨.undef, .undef, JsField.null⟩, 5)] [] = ⟨[], [], [JsField.null]⟩ :=
  c8_supply_batch.2.2.1 ⟨.undef, .undef, JsField.null⟩ 5 [] [] (by decide)

/-- C4 counterexample: on a registration update, a feature flag absent
from the payload does not keep its stored value.  Hostname "h1" is
stored with enableMrpPrice explicitly false; re-syncing it with a
payload that omits enableMrpPrice rewrites the flag to its per-field
default true (server.js line 896). -/
theorem c4_register_flags_counterexample :
    regRec0.enableMrpPrice = JsField.undef
    ∧ regRow0.enableMrpPrice = some false
    ∧ syncRegister regRec0 9 ⟨[regRow0], 2, 101⟩
        = some (regRow0upd, false, ⟨[regRow0upd], 2, 101⟩)
    ∧ regRow0upd.enableMrpPrice = some true := by
  decide

/-- C4 amended: on a registration update, an explicitly provided flag
value — including explicit false — overwrites the stored value, but a
flag absent from the payload is reset to its per-field insert default
(true for enableMrpPrice and the five menu flags, false for
enableWspPrice and enableSpPrice), not kept; an explicit null is stored
as NULL; and gstEnabled becomes false whenever absent, null or false. -/
theorem c4_register_flags_amended :
    (∀ (rec : RegRec) (now : Nat) (st : RegStore) (e r : RegRow) (b : Bool) (st2 : RegStore),
      st.rows.find? (fun q => jsStrEq rec.hostName q.hostName) = some e →
      syncRegister rec now st = some (r, b, st2) →
      r.gstEnabled = jsOrFalse rec.gstEnabled
      ∧ r.enableMrpPrice = flagParam rec.enableMrpPrice true
      ∧ r.enableWspPrice = flagParam rec.enableWspPrice false
      ∧ r.enableSpPrice = flagParam rec.enableSpPrice false
      ∧ r.enableBillMenu = flagParam rec.enableBillMenu true
      ∧ r.enableInventoryMenu = flagParam rec.enableInventoryMenu true
      ∧ r.enableBomMenu = flagParam rec.enableBomMenu true
      ∧ r.enableReportsMenu = flagParam rec.enableReportsMenu true
      ∧ r.enableRenewalMenu = flagParam rec.enableRenewalMenu true)
    ∧ (∀ (b d : Bool), flagParam (JsField.val b) d = some b)
    ∧ (∀ d : Bool, flagParam JsField.undef d = some d)
    ∧ (∀ d : Bool, flagParam JsField.null d = none) := by
  refine ⟨?_, fun b d => rfl, fun d => rfl, fun d => rfl⟩
  intro rec now st e r b st2 hf h
  unfold syncRegister at h
  rw [hf] at h
  simp only [Option.some.injEq, Prod.mk.injEq] at h
  rw [← h.1]
  exact ⟨rfl, rfl, rfl, rfl, rfl, rfl, rfl, rfl, rfl⟩

/-- Witness for C4: the update of `regRow0` by the flag-omitting
payload `regRec0`. -/
theorem c4_register_flags_amended_witness :
    regRow0upd.gstEnabled = jsOrFalse regRec0.gstEnabled
    ∧ regRow0upd.enableMrpPrice = flagParam regRec0.enableMrpPrice true
    ∧ regRow0upd.enableWspPrice = flagParam regRec0.enableWspPrice false
    ∧ regRow0upd.enableSpPrice = flagParam regRec0.enableSpPrice false
    ∧ regRow0upd.enableBillMenu = flagParam regRec0.enableBillMenu true
    ∧ regRow0upd.enableInventoryMenu = flagParam regRec0.enableInventoryMenu true
    ∧ regRow0upd.enableBomMenu = flagParam regRec0.enableBomMenu true
    ∧ regRow0upd.enableReportsMenu = flagParam regRec0.enableReportsMenu true
    ∧ regRow0upd.enableRenewalMenu = flagParam regRec0.enableRenewalMenu true :=
  c4_register_flags_amended.1 regRec0 9 ⟨[regRow0], 2, 101⟩ regRow0 regRow0upd false
    ⟨[regRow0upd], 2, 101⟩ (by decide) (by decide)

/-- Projection of a registration row to its immutable-on-update
columns: id, merchant id, hostname, registration date, edit password
and creation time. -/
def regFrame (r : RegRow) : Nat × Nat × String × String × String × Nat :=
  (r.id, r.merchantId, r.hostName, r.registeredDate, r.editPassword, r.created_at)

/-- C6: re-syncing an already registered hostname leaves the row's
merchant id and edit password unchanged — even when the payload carries
different values for them — and likewise its id, hostname, registration
date and created_at; across the whole store these immutable columns are
untouched, and the SERIAL sequences do not advance. -/
theorem c6_register_immutable_fields :
    ∀ (rec : RegRec) (now : Nat) (st : RegStore) (e r : RegRow) (b : Bool) (st2 : RegStore),
      st.rows.find? (fun q => jsStrEq rec.hostName q.hostName) = some e →
      syncRegister rec now st = some (r, b, st2) →
      r.merchantId = e.merchantId ∧ r.editPassword = e.editPassword
      ∧ r.id = e.id ∧ r.hostName = e.hostName ∧ r.registeredDate = e.registeredDate
      ∧ r.created_at = e.created_at
      ∧ st2.rows.map regFrame = st.rows.map regFrame
      ∧ st2.nextId = st.nextId ∧ st2.nextMid = st.nextMid := by
  intro rec now st e r b st2 hf h
  unfold syncRegister at h
  rw [hf] at h
  simp only [Option.some.injEq, Prod.mk.injEq] at h
  obtain ⟨hr, hb, hst⟩ := h
  refine ⟨by rw [← hr]; rfl, by rw [← hr]; rfl, by rw [← hr]; rfl, by rw [← hr]; rfl,
    by rw [← hr]; rfl, by rw [← hr]; rfl, ?_, by rw [← hst], by rw [← hst]⟩
  rw [← hst]
  exact map_key_map_pres regFrame _ st.rows fun q => by
    by_cases hq : (q.id == e.id) = true
    · rw [if_pos hq]
      rfl
    · rw [if_neg hq]

/-- Witness for C6: the update of `regRow0` by `regRec0`, whose payload
carries the different edit password "evil". -/
theorem c6_register_immutable_fields_witness :
    regRow0upd.merchantId = regRow0.merchantId
    ∧ regRow0upd.editPassword = regRow0.editPassword
    ∧ regRow0upd.id = regRow0.id
    ∧ regRow0upd.hostName = regRow0.hostName
    ∧ regRow0upd.registeredDate = regRow0.registeredDate
    ∧ regRow0upd.created_at = regRow0.created_at
    ∧ [regRow0upd].map regFrame = [regRow0].map regFrame
    ∧ (2 : Nat) = 2 ∧ (101 : Nat) = 101 :=
  c6_register_immutable_fields regRec0 9 ⟨[regRow0], 2, 101⟩ regRow0 regRow0upd false
    ⟨[regRow0upd], 2, 101⟩ (by decide) (by decide)

/-- C10: on first-time registration of a hostname (the insert branch),
the stored edit password is the server-side literal 'paybean'
(server.js line 953), whatever editPassword value the payload supplies;
the row is appended and the response reports it as new. -/
theorem c10_register_edit_password :
    ∀ (rec : RegRec) (now : Nat) (st : RegStore) (r : RegRow) (b : Bool) (st2 : RegStore),
      st.rows.find? (fun q => jsStrEq rec.hostName q.hostName) = none →
      syncRegister rec now st = some (r, b, st2) →
      r.editPassword = "paybean" ∧ b = true ∧ st2.rows = st.rows ++ [r] := by
  intro rec now st r b st2 hf h
  unfold syncRegister at h
  rw [hf] at h
  cases hh : rec.hostName with
  | val hn =>
    rw [hh] at h
    cases hd : rec.registeredDate with
    | val rd =>
      rw [hd] at h
      simp only [Option.some.injEq, Prod.mk.injEq] at h
      obtain ⟨hr, hb, hst⟩ := h
      refine ⟨by rw [← hr]; rfl, hb.symm, ?_⟩
      rw [← hst, ← hr]
    | undef => rw [hd] at h; cases h
    | null => rw [hd] at h; cases h
  | undef => rw [hh] at h; cases h
  | null => rw [hh] at h; cases h

/-- A first-time registration payload for hostname "h2" that tries to
choose its own edit password. -/
def regRec1 : RegRec :=
  ⟨.undef, .val "h2", .val "2024-02-02", .undef, .undef, .undef, .undef, .undef, .undef,
    .undef, .undef, .undef, .undef, .undef, .undef, .undef, .undef, .undef, .undef,
    .undef, .val "evil2"⟩

/-- The row the insert branch creates for `regRec1` at 9 ms on a store
whose sequences stand at 2 and 101. -/
def regRow1ins : RegRow :=
  ⟨2, none, "h2", "2024-02-02", none, none, none, none, none, none, none, none, false,
    some true, some false, some false, 101, "paybean", some true, some true, some true,
    some true, some true, 9, 9⟩

/-- Witness for C10: registering the fresh hostname "h2" with payload
edit password "evil2" stores the edit password "paybean". -/
theorem c10_register_edit_password_witness :
    regRow1ins.editPassword = "paybean" ∧ (true : Bool) = true
    ∧ [regRow0, regRow1ins] = [regRow0] ++ [regRow1ins] :=
  c10_register_edit_password regRec1 9 ⟨[regRow0], 2, 101⟩ regRow1ins true
    ⟨[regRow0, regRow1ins], 3, 102⟩ (by decide) (by decide)

/-- Columns of a merchants row its UPDATE may not touch: id, mid, the
natural-key name and created_at (the SET list is only updated_at). -/
def merchFrame (r : MerchRow) : Int × Int × String × Nat :=
  (r.id, r.mid, r.name, r.created_at)

/-- Columns of an inventory row its UPDATE may not touch: id, mid, the
natural-key (merchant_name, date) and created_at (the SET list is data
and updated_at). -/
def invFrame (r : InvRow) : Int × Int × String × String × Nat :=
  (r.id, r.mid, r.merchant_name, r.date, r.created_at)

/-- Columns of a supply row its UPDATE may not touch: id, mid, the
natural-key name and created_at (the SET list is only updated_at). -/
def supplyFrame (r : SupplyRow) : Int × Int × String × Nat :=
  (r.id, r.mid, r.name, r.created_at)

/-- Columns of a production row its UPDATE may not touch: id, mid, the
natural-key date and created_at (the SET list is data and updated_at). -/
def prodFrame (r : ProdRow) : Int × Int × String × Nat :=
  (r.id, r.mid, r.date, r.created_at)

/-- Columns of a products row its UPDATE may not touch: id, mid, the
natural-key name and created_at (the SET list is the pricing fields,
the date and updated_at). -/
def productFrame (r : ProductRow) : Int × Int × String × Nat :=
  (r.id, r.mid, r.name, r.created_at)

/-- Columns of a bill-of-material row its UPDATE may not touch: id,
mid, the natural-key name and created_at (the SET list is data, date
and updated_at). -/
def bomFrame (r : BomRow) : Int × Int × String × Nat :=
  (r.id, r.mid, r.name, r.created_at)

/-- C5 amended: when the lookup finds an existing row, the update
refreshes the returned row's updated_at and updates only mutable
fields for every kind that has an updated_at column — for merchants,
inventory, supply, production, products, bill-of-material the id, mid,
natural-key columns and created_at of the returned row equal the found
row's and are untouched across the whole store, and for registration
the id, merchant id, hostname, registration date, edit password and
created_at are kept.  For bills, whose table has no updated_at column,
the update touches only the data payload otherwise but overwrites
created_at with the current time (and keeps id and mid). -/
theorem c5_update_refresh_amended :
    (∀ (rec : MerchRec) (now : Nat) (s : List MerchRow) (e r : MerchRow) (s2 : List MerchRow),
      s.find? (merchOps.look rec now) = some e → merchOps.run rec now s = some (r, s2) →
      r.updated_at = now ∧ merchFrame r = merchFrame e
      ∧ s2.map merchFrame = s.map merchFrame)
    ∧ (∀ (rec : BillRec) (now : Nat) (s : List BillRow) (e r : BillRow) (s2 : List BillRow),
      s.find? (billsOps.look rec now) = some e → billsOps.run rec now s = some (r, s2) →
      r.created_at = now ∧ r.id = e.id ∧ r.mid = e.mid ∧ r.data = rec.raw
      ∧ s2.map billsOps.key = s.map billsOps.key)
    ∧ (∀ (rec : InvRec) (now : Nat) (s : List InvRow) (e r : InvRow) (s2 : List InvRow),
      s.find? (invOps.look rec now) = some e → invOps.run rec now s = some (r, s2) →
      r.updated_at = now ∧ invFrame r = invFrame e
      ∧ s2.map invFrame = s.map invFrame)
    ∧ (∀ (rec : SupplyRec) (now : Nat) (s : List SupplyRow) (e r : SupplyRow) (s2 : List SupplyRow),
      s.find? (supplyOps.look rec now) = some e → supplyOps.run rec now s = some (r, s2) →
      r.updated_at = now ∧ supplyFrame r = supplyFrame e
      ∧ s2.map supplyFrame = s.map supplyFrame)
    ∧ (∀ (rec : ProdRec) (now : Nat) (s : List ProdRow) (e r : ProdRow) (s2 : List ProdRow),
      s.find? (prodOps.look rec now) = some e → prodOps.run rec now s = some (r, s2) →
      r.updated_at = now ∧ prodFrame r = prodFrame e
      ∧ s2.map prodFrame = s.map prodFrame)
    ∧ (∀ (rec : ProductRec) (now : Nat) (s : List ProductRow) (e r : ProductRow) (s2 : List ProductRow),
      s.find? (productOps.look rec now) = some e → productOps.run rec now s = some (r, s2) →
      r.updated_at = now ∧ productFrame r = productFrame e
      ∧ s2.map productFrame = s.map productFrame)
    ∧ (∀ (rec : BomRec) (now : Nat) (s : List BomRow) (e r : BomRow) (s2 : List BomRow),
      s.find? (bomOps.look rec now) = some e → bomOps.run rec now s = some (r, s2) →
      r.updated_at = now ∧ bomFrame r = bomFrame e
      ∧ s2.map bomFrame = s.map bomFrame)
    ∧ (∀ (rec : RegRec) (now : Nat) (st : RegStore) (e r : RegRow) (b : Bool) (st2 : RegStore),
      st.rows.find? (fun q => jsStrEq rec.hostName q.hostName) = some e →
      syncRegister rec now st = some (r, b, st2) →
      r.updated_at = now ∧ regFrame r = regFrame e) := by
  refine ⟨?_, ?_, ?_, ?_, ?_, ?_, ?_, ?_⟩
  · intro rec now s e r s2 hf h
    unfold KindOps.run at h
    rw [hf] at h
    simp only [merchOps, Option.some.injEq, Prod.mk.injEq] at h
    obtain ⟨hr, hs⟩ := h
    subst hr
    subst hs
    exact ⟨rfl, rfl, map_key_map_pres merchFrame _ s fun q => by split <;> rfl⟩
  · intro rec now s e r s2 hf h
    unfold KindOps.run at h
    rw [hf] at h
    simp only [billsOps, Option.some.injEq, Prod.mk.injEq] at h
    obtain ⟨hr, hs⟩ := h
    subst hr
    subst hs
    exact ⟨rfl, rfl, rfl, rfl, map_key_map_pres billsOps.key _ s fun q => by split <;> rfl⟩
  · intro rec now s e r s2 hf h
    unfold KindOps.run at h
    rw [hf] at h
    cases hup : invOps.updSet rec now with
    | none => rw [hup] at h; cases h
    | some f =>
      rw [hup] at h
      obtain ⟨b, hsb, rfl⟩ := invUpd_inv hup
      simp only [Option.some.injEq, Prod.mk.injEq] at h
      obtain ⟨hr, hs⟩ := h
      subst hr
      subst hs
      exact ⟨rfl, rfl, map_key_map_pres invFrame _ s fun q => by split <;> rfl⟩
  · intro rec now s e r s2 hf h
    unfold KindOps.run at h
    rw [hf] at h
    simp only [supplyOps, Option.some.injEq, Prod.mk.injEq] at h
    obtain ⟨hr, hs⟩ := h
    subst hr
    subst hs
    exact ⟨rfl, rfl, map_key_map_pres supplyFrame _ s fun q => by split <;> rfl⟩
  · intro rec now s e r s2 hf h
    unfold KindOps.run at h
    rw [hf] at h
    simp only [prodOps, Option.some.injEq, Prod.mk.injEq] at h
    obtain ⟨hr, hs⟩ := h
    subst hr
    subst hs
    exact ⟨rfl, rfl, map_key_map_pres prodFrame _ s fun q => by split <;> rfl⟩
  · intro rec now s e r s2 hf h
    unfold KindOps.run at h
    rw [hf] at h
    simp only [productOps, Option.some.injEq, Prod.mk.injEq] at h
    obtain ⟨hr, hs⟩ := h
    subst hr
    subst hs
    exact ⟨rfl, rfl, map_key_map_pres productFrame _ s fun q => by split <;> rfl⟩
  · intro rec now s e r s2 hf h
    unfold KindOps.run at h
    rw [hf] at h
    cases hup : bomOps.updSet rec now with
    | none => rw [hup] at h; cases h
    | some f =>
      rw [hup] at h
      obtain ⟨b, d, hb, hd, rfl⟩ := bomUpd_inv hup
      simp only [Option.some.injEq, Prod.mk.injEq] at h
      obtain ⟨hr, hs⟩ := h
      subst hr
      subst hs
      exact ⟨rfl, rfl, map_key_map_pres bomFrame _ s fun q => by split <;> rfl⟩
  · intro rec now st e r b st2 hf h
    unfold syncRegister at h
    rw [hf] at h
    simp only [Option.some.injEq, Prod.mk.injEq] at h
    obtain ⟨hr, hb2, hst⟩ := h
    subst hr
    exact ⟨rfl, rfl⟩

/-- Witness for C5: a concrete found-row update for each kind, showing
the refreshed timestamp and the untouched immutable columns. -/
theorem c5_update_refresh_amended_witness :
    ((⟨1, 1, "m", 5, 9⟩ : MerchRow).updated_at = 9
      ∧ merchFrame ⟨1, 1, "m", 5, 9⟩ = merchFrame ⟨1, 1, "m", 5, 5⟩
      ∧ ([⟨1, 1, "m", 5, 9⟩] : List MerchRow).map merchFrame
        = ([⟨1, 1, "m", 5, 5⟩] : List MerchRow).map merchFrame)
    ∧ ((⟨42, 1, "d2", 9⟩ : BillRow).created_at = 9
      ∧ (⟨42, 1, "d2", 9⟩ : BillRow).id = (⟨42, 1, "d1", 5⟩ : BillRow).id
      ∧ (⟨42, 1, "d2", 9⟩ : BillRow).mid = (⟨42, 1, "d1", 5⟩ : BillRow).mid
      ∧ (⟨42, 1, "d2", 9⟩ : BillRow).data = "d2"
      ∧ ([⟨42, 1, "d2", 9⟩] : List BillRow).map billsOps.key
        = ([⟨42, 1, "d1", 5⟩] : List BillRow).map billsOps.key)
    ∧ ((⟨5, 1, "A", "dt", "b2", 5, 9⟩ : InvRow).updated_at = 9
      ∧ invFrame ⟨5, 1, "A", "dt", "b2", 5, 9⟩ = invFrame ⟨5, 1, "A", "dt", "b1", 5, 5⟩
      ∧ ([⟨5, 1, "A", "dt", "b2", 5, 9⟩] : List InvRow).map invFrame
        = ([⟨5, 1, "A", "dt", "b1", 5, 5⟩] : List InvRow).map invFrame)
    ∧ ((⟨5, 1, "s", 5, 9⟩ : SupplyRow).updated_at = 9
      ∧ supplyFrame ⟨5, 1, "s", 5, 9⟩ = supplyFrame ⟨5, 1, "s", 5, 5⟩
      ∧ ([⟨5, 1, "s", 5, 9⟩] : List SupplyRow).map supplyFrame
        = ([⟨5, 1, "s", 5, 5⟩] : List SupplyRow).map supplyFrame)
    ∧ ((⟨5, 1, "dt", "b2", 5, 9⟩ : ProdRow).updated_at = 9
      ∧ prodFrame ⟨5, 1, "dt", "b2", 5, 9⟩ = prodFrame ⟨5, 1, "dt", "b1", 5, 5⟩
      ∧ ([⟨5, 1, "dt", "b2", 5, 9⟩] : List ProdRow).map prodFrame
        = ([⟨5, 1, "dt", "b1", 5, 5⟩] : List ProdRow).map prodFrame)
    ∧ ((⟨5, 1, "p", 0, 0, 0, "unit", 0, 0, none, 5, 9⟩ : ProductRow).updated_at = 9
      ∧ productFrame ⟨5, 1, "p", 0, 0, 0, "unit", 0, 0, none, 5, 9⟩
        = productFrame ⟨5, 1, "p", 1, 2, 3, "kg", 4, 5, some "dd", 5, 5⟩
      ∧ ([⟨5, 1, "p", 0, 0, 0, "unit", 0, 0, none, 5, 9⟩] : List ProductRow).map productFrame
        = ([⟨5, 1, "p", 1, 2, 3, "kg", 4, 5, some "dd", 5, 5⟩] : List ProductRow).map productFrame)
    ∧ ((⟨5, 1, "c", "d2", "i2", 5, 9⟩ : BomRow).updated_at = 9
      ∧ bomFrame ⟨5, 1, "c", "d2", "i2", 5, 9⟩ = bomFrame ⟨5, 1, "c", "d1", "i1", 5, 5⟩
      ∧ ([⟨5, 1, "c", "d2", "i2", 5, 9⟩] : List BomRow).map bomFrame
        = ([⟨5, 1, "c", "d1", "i1", 5, 5⟩] : List BomRow).map bomFrame)
    ∧ (regRow0upd.updated_at = 9 ∧ regFrame regRow0upd = regFrame regRow0) :=
  ⟨c5_update_refresh_amended.1 ⟨.undef, .undef, .val "m"⟩ 9 [⟨1, 1, "m", 5, 5⟩]
      ⟨1, 1, "m", 5, 5⟩ ⟨1, 1, "m", 5, 9⟩ [⟨1, 1, "m", 5, 9⟩] (by decide) (by decide),
   c5_update_refresh_amended.2.1 ⟨.val 42, .undef, .undef, "d2"⟩ 9 [⟨42, 1, "d1", 5⟩]
      ⟨42, 1, "d1", 5⟩ ⟨42, 1, "d2", 9⟩ [⟨42, 1, "d2", 9⟩] (by decide) (by decide),
   c5_update_refresh_amended.2.2.1 ⟨.undef, .undef, .val "A", .val "dt", .val "b2"⟩ 9
      [⟨5, 1, "A", "dt", "b1", 5, 5⟩] ⟨5, 1, "A", "dt", "b1", 5, 5⟩
      ⟨5, 1, "A", "dt", "b2", 5, 9⟩ [⟨5, 1, "A", "dt", "b2", 5, 9⟩] (by decide) (by decide),
   c5_update_refresh_amended.2.2.2.1 ⟨.undef, .undef, .val "s"⟩ 9 [⟨5, 1, "s", 5, 5⟩]
      ⟨5, 1, "s", 5, 5⟩ ⟨5, 1, "s", 5, 9⟩ [⟨5, 1, "s", 5, 9⟩] (by decide) (by decide),
   c5_update_refresh_amended.2.2.2.2.1 ⟨.undef, .undef, .val "dt", "b2"⟩ 9
      [⟨5, 1, "dt", "b1", 5, 5⟩] ⟨5, 1, "dt", "b1", 5, 5⟩
      ⟨5, 1, "dt", "b2", 5, 9⟩ [⟨5, 1, "dt", "b2", 5, 9⟩] (by decide) (by decide),
   c5_update_refresh_amended.2.2.2.2.2.1 ⟨.undef, .undef, .val "p", .undef, .undef, .undef,
      .undef, .undef, .undef, .undef⟩ 9 [⟨5, 1, "p", 1, 2, 3, "kg", 4, 5, some "dd", 5, 5⟩]
      ⟨5, 1, "p", 1, 2, 3, "kg", 4, 5, some "dd", 5, 5⟩
      ⟨5, 1, "p", 0, 0, 0, "unit", 0, 0, none, 5, 9⟩
      [⟨5, 1, "p", 0, 0, 0, "unit", 0, 0, none, 5, 9⟩] (by decide) (by decide),
   c5_update_refresh_amended.2.2.2.2.2.2.1 ⟨.undef, .undef, .val "c", .val "d2", .val "i2"⟩ 9
      [⟨5, 1, "c", "d1", "i1", 5, 5⟩] ⟨5, 1, "c", "d1", "i1", 5, 5⟩
      ⟨5, 1, "c", "d2", "i2", 5, 9⟩ [⟨5, 1, "c", "d2", "i2", 5, 9⟩] (by decide) (by decide),
   c5_update_refresh_amended.2.2.2.2.2.2.2 regRec0 9 ⟨[regRow0], 2, 101⟩ regRow0 regRow0upd
      false ⟨[regRow0upd], 2, 101⟩ (by decide) (by decide)⟩
